import Mathlib

set_option maxRecDepth 40000

/-!
# franken-firewall — verification of the guardrail pipeline core

Shallow embedding of the TypeScript sources:
* `src/pipeline/pipeline.ts` (`runPipeline`, `makeBlockedResponse`)
* `src/interceptors/inbound/injection-scanner.ts`
* `src/interceptors/inbound/pii-masker.ts`
* `src/interceptors/inbound/project-alignment-checker.ts`
* `src/interceptors/outbound/schema-enforcer.ts`
* `src/interceptors/outbound/deterministic-grounder.ts`
* `src/interceptors/outbound/hallucination-scraper.ts`

Modelling conventions:
* JavaScript runtime values that the code treats dynamically (the raw adapter
  output inspected by the schema enforcer, violation payloads) are modelled by
  the inductive `JsValue`.
* JavaScript numbers are modelled by exact fractions (`JNum`, with a bridge
  `JNum.toRat` into `ℚ` for statements); IEEE-754 rounding and NaN are not
  modelled.  String formatting of numbers inside human-readable violation
  messages (`toFixed(6)`, number→string coercion) is rendered by simple exact
  decimal printers; no claim depends on the exact rendering of a float.
* JavaScript regular expressions are executed by a backtracking matcher
  (`Rx.mat`) implementing ECMAScript ordered-alternation / greedy / lazy
  semantics for the constructs the source patterns use.
* Thrown JS exceptions are modelled by `Except ThrownValue`.
-/

/-! ## JS numbers

An exact, kernel-computable fraction type.  A JavaScript number `x` is
represented by any pair `num/den` with `den > 0` and `x = num/den`; the
representation is not normalised (all operations are exact, so no claim
depends on the representative).  `JNum.WF` states that the denominator is
positive, which holds for every number the modelled code constructs. -/

structure JNum where
  num : Int
  den : Int
deriving DecidableEq

/-- Well-formed representation of a (finite) JS number. -/
def JNum.WF (a : JNum) : Prop := 0 < a.den

instance (a : JNum) : Decidable a.WF := by unfold JNum.WF; infer_instance

def JNum.ofNat (n : Nat) : JNum := ⟨n, 1⟩

instance : OfNat JNum n := ⟨JNum.ofNat n⟩

def JNum.mul (a b : JNum) : JNum := ⟨a.num * b.num, a.den * b.den⟩

def JNum.add (a b : JNum) : JNum := ⟨a.num * b.den + b.num * a.den, a.den * b.den⟩

def JNum.div (a b : JNum) : JNum :=
  if b.num < 0 then ⟨-(a.num * b.den), a.den * -b.num⟩ else ⟨a.num * b.den, a.den * b.num⟩

/-- `a < b` (numeric), for well-formed representations. -/
def JNum.blt (a b : JNum) : Bool := a.num * b.den < b.num * a.den

/-- `a > b` (numeric). -/
def JNum.bgt (a b : JNum) : Bool := b.blt a

/-- Numeric equality (JS `===` on two numbers). -/
def JNum.numEq (a b : JNum) : Bool := a.num * b.den == b.num * a.den

/-- The rational value denoted (for `WF` representations). -/
def JNum.toRat (a : JNum) : ℚ := (a.num : ℚ) / (a.den : ℚ)

theorem JNum.blt_iff_toRat {a b : JNum} (ha : a.WF) (hb : b.WF) :
    a.blt b = true ↔ a.toRat < b.toRat := by
  unfold JNum.blt JNum.toRat
  rw [decide_eq_true_iff, div_lt_div_iff₀ (by exact_mod_cast ha) (by exact_mod_cast hb)]
  constructor
  · intro h; exact_mod_cast h
  · intro h; exact_mod_cast h

theorem JNum.mul_toRat (a b : JNum) : (a.mul b).toRat = a.toRat * b.toRat := by
  unfold JNum.mul JNum.toRat
  push_cast
  rw [div_mul_div_comm]

theorem JNum.ofNat_toRat (n : Nat) : (JNum.ofNat n).toRat = (n : ℚ) := by
  unfold JNum.ofNat JNum.toRat
  norm_num

/-! ## Dynamic JS values -/

/-- A JavaScript runtime value, as inspected dynamically by the schema
enforcer and carried in violation payloads. -/
inductive JsValue where
  | vundef : JsValue
  | vnull : JsValue
  | vbool : Bool → JsValue
  | vnum : JNum → JsValue
  | vstr : String → JsValue
  | varr : List JsValue → JsValue
  | vobj : List (String × JsValue) → JsValue

mutual

def jsDecEq : (a b : JsValue) → Decidable (a = b)
  | .vundef, .vundef => isTrue rfl
  | .vnull, .vnull => isTrue rfl
  | .vbool a, .vbool b =>
      if h : a = b then isTrue (by rw [h]) else isFalse (fun hh => h (by injection hh))
  | .vnum a, .vnum b =>
      if h : a = b then isTrue (by rw [h]) else isFalse (fun hh => h (by injection hh))
  | .vstr a, .vstr b =>
      if h : a = b then isTrue (by rw [h]) else isFalse (fun hh => h (by injection hh))
  | .varr xs, .varr ys =>
      match jsDecEqL xs ys with
      | isTrue h => isTrue (by rw [h])
      | isFalse h => isFalse (fun hh => h (by injection hh))
  | .vobj fs, .vobj gs =>
      match jsDecEqF fs gs with
      | isTrue h => isTrue (by rw [h])
      | isFalse h => isFalse (fun hh => h (by injection hh))
  | .vundef, .vnull => isFalse (fun h => JsValue.noConfusion h)
  | .vundef, .vbool _ => isFalse (fun h => JsValue.noConfusion h)
  | .vundef, .vnum _ => isFalse (fun h => JsValue.noConfusion h)
  | .vundef, .vstr _ => isFalse (fun h => JsValue.noConfusion h)
  | .vundef, .varr _ => isFalse (fun h => JsValue.noConfusion h)
  | .vundef, .vobj _ => isFalse (fun h => JsValue.noConfusion h)
  | .vnull, .vundef => isFalse (fun h => JsValue.noConfusion h)
  | .vnull, .vbool _ => isFalse (fun h => JsValue.noConfusion h)
  | .vnull, .vnum _ => isFalse (fun h => JsValue.noConfusion h)
  | .vnull, .vstr _ => isFalse (fun h => JsValue.noConfusion h)
  | .vnull, .varr _ => isFalse (fun h => JsValue.noConfusion h)
  | .vnull, .vobj _ => isFalse (fun h => JsValue.noConfusion h)
  | .vbool _, .vundef => isFalse (fun h => JsValue.noConfusion h)
  | .vbool _, .vnull => isFalse (fun h => JsValue.noConfusion h)
  | .vbool _, .vnum _ => isFalse (fun h => JsValue.noConfusion h)
  | .vbool _, .vstr _ => isFalse (fun h => JsValue.noConfusion h)
  | .vbool _, .varr _ => isFalse (fun h => JsValue.noConfusion h)
  | .vbool _, .vobj _ => isFalse (fun h => JsValue.noConfusion h)
  | .vnum _, .vundef => isFalse (fun h => JsValue.noConfusion h)
  | .vnum _, .vnull => isFalse (fun h => JsValue.noConfusion h)
  | .vnum _, .vbool _ => isFalse (fun h => JsValue.noConfusion h)
  | .vnum _, .vstr _ => isFalse (fun h => JsValue.noConfusion h)
  | .vnum _, .varr _ => isFalse (fun h => JsValue.noConfusion h)
  | .vnum _, .vobj _ => isFalse (fun h => JsValue.noConfusion h)
  | .vstr _, .vundef => isFalse (fun h => JsValue.noConfusion h)
  | .vstr _, .vnull => isFalse (fun h => JsValue.noConfusion h)
  | .vstr _, .vbool _ => isFalse (fun h => JsValue.noConfusion h)
  | .vstr _, .vnum _ => isFalse (fun h => JsValue.noConfusion h)
  | .vstr _, .varr _ => isFalse (fun h => JsValue.noConfusion h)
  | .vstr _, .vobj _ => isFalse (fun h => JsValue.noConfusion h)
  | .varr _, .vundef => isFalse (fun h => JsValue.noConfusion h)
  | .varr _, .vnull => isFalse (fun h => JsValue.noConfusion h)
  | .varr _, .vbool _ => isFalse (fun h => JsValue.noConfusion h)
  | .varr _, .vnum _ => isFalse (fun h => JsValue.noConfusion h)
  | .varr _, .vstr _ => isFalse (fun h => JsValue.noConfusion h)
  | .varr _, .vobj _ => isFalse (fun h => JsValue.noConfusion h)
  | .vobj _, .vundef => isFalse (fun h => JsValue.noConfusion h)
  | .vobj _, .vnull => isFalse (fun h => JsValue.noConfusion h)
  | .vobj _, .vbool _ => isFalse (fun h => JsValue.noConfusion h)
  | .vobj _, .vnum _ => isFalse (fun h => JsValue.noConfusion h)
  | .vobj _, .vstr _ => isFalse (fun h => JsValue.noConfusion h)
  | .vobj _, .varr _ => isFalse (fun h => JsValue.noConfusion h)

def jsDecEqL : (xs ys : List JsValue) → Decidable (xs = ys)
  | [], [] => isTrue rfl
  | [], _ :: _ => isFalse (fun h => List.noConfusion h)
  | _ :: _, [] => isFalse (fun h => List.noConfusion h)
  | x :: xs, y :: ys =>
      match jsDecEq x y with
      | isFalse h => isFalse (fun hh => h (by injection hh))
      | isTrue h1 =>
        match jsDecEqL xs ys with
        | isTrue h2 => isTrue (by rw [h1, h2])
        | isFalse h => isFalse (fun hh => h (by injection hh))

def jsDecEqF : (fs gs : List (String × JsValue)) → Decidable (fs = gs)
  | [], [] => isTrue rfl
  | [], _ :: _ => isFalse (fun h => List.noConfusion h)
  | _ :: _, [] => isFalse (fun h => List.noConfusion h)
  | (k, v) :: fs, (l, w) :: gs =>
      if hk : k = l then
        match jsDecEq v w with
        | isFalse h =>
            isFalse (fun hh => by
              injection hh with h1 _
              exact h (congrArg Prod.snd h1))
        | isTrue h1 =>
          match jsDecEqF fs gs with
          | isTrue h2 => isTrue (by rw [hk, h1, h2])
          | isFalse h => isFalse (fun hh => h (by injection hh))
      else
        isFalse (fun hh => by
          injection hh with h1 _
          exact hk (congrArg Prod.fst h1))

end

instance : DecidableEq JsValue := jsDecEq

/-- `typeof v` in JavaScript (note `typeof null = "object"`). -/
def jsTypeof : JsValue → String
  | .vundef => "undefined"
  | .vnull => "object"
  | .vbool _ => "boolean"
  | .vnum _ => "number"
  | .vstr _ => "string"
  | .varr _ => "object"
  | .vobj _ => "object"

/-- JavaScript falsiness (`!v`).  `NaN` does not exist in the rational model. -/
def jsFalsy : JsValue → Bool
  | .vundef => true
  | .vnull => true
  | .vbool b => !b
  | .vnum q => q.num == 0
  | .vstr s => s == ""
  | .varr _ => false
  | .vobj _ => false

/-- Property read `v[k]`: a missing property (or a read on a non-object,
which the pipeline never performs on a primitive) yields `undefined`.
Array index properties are not modelled; the sources only read named
properties. -/
def getField : JsValue → String → JsValue
  | .vobj fs, k => ((fs.find? (fun p => p.1 == k)).map (·.2)).getD .vundef
  | _, _ => (.vundef)

/-- Object spread with one overridden key: `{ ...v, k: x }`.  The source only
spreads objects, where the overridden key keeps its original position. -/
def setField (v : JsValue) (k : String) (x : JsValue) : JsValue :=
  match v with
  | .vobj fs =>
      if fs.any (fun p => p.1 == k) then
        .vobj (fs.map (fun p => if p.1 == k then (k, x) else p))
      else
        .vobj (fs ++ [(k, x)])
  | w => w

/-- `Array.isArray`-guarded array view: the element list when the value is an
array, `[]` otherwise. -/
def asArray : JsValue → List JsValue
  | .varr xs => xs
  | _ => []

/-- String view of a value the code has already established to be a string. -/
def asString : JsValue → String
  | .vstr s => s
  | _ => ""

/-! ## Regular-expression engine

A backtracking matcher implementing ECMAScript semantics (ordered
alternation, greedy/lazy quantifiers, word boundaries, negative lookahead,
capturing groups) for the constructs appearing in the source patterns.  The
matcher threads a fuel counter that bounds the depth of a single matching
path; `rxFuel` below is always sufficient for the patterns of this
repository because every quantified sub-pattern consumes at least one
character per iteration. -/

/-- One item of a character class. -/
inductive ClsItem where
  | single : Char → ClsItem
  | range : Char → Char → ClsItem
  | digit : ClsItem
  | space : ClsItem
  | word : ClsItem
deriving DecidableEq

/-- ECMAScript `\s` (WhiteSpace ∪ LineTerminator). -/
def isJsSpace (c : Char) : Bool :=
  c = ' ' || c = '\t' || c = '\n' || c = '\x0b' || c = '\x0c' || c = '\x0d' ||
  c = ' ' || c = ' ' ||
  (' ' ≤ c && c ≤ ' ') ||
  c = ' ' || c = ' ' || c = ' ' || c = ' ' ||
  c = '　' || c = '﻿'

/-- ECMAScript `\w` = `[A-Za-z0-9_]`. -/
def isWordChar (c : Char) : Bool :=
  ('a' ≤ c && c ≤ 'z') || ('A' ≤ c && c ≤ 'Z') || ('0' ≤ c && c ≤ '9') || c = '_'

/-- ECMAScript LineTerminator (what `.` does not match without the `s` flag). -/
def isLineTerm (c : Char) : Bool :=
  c = '\n' || c = '\x0d' || c = ' ' || c = ' '

/-- Case-insensitive comparison used by the `i` flag (ASCII canonicalisation
suffices for the source patterns). -/
def charEqCI (ci : Bool) (a b : Char) : Bool :=
  if ci then a.toLower == b.toLower else a == b

def clsItemMatch (ci : Bool) : ClsItem → Char → Bool
  | .single x, c => charEqCI ci x c
  | .range lo hi, c =>
      (lo ≤ c && c ≤ hi) || (ci && lo ≤ c.toLower && c.toLower ≤ hi)
  | .digit, c => '0' ≤ c && c ≤ '9'
  | .space, c => isJsSpace c
  | .word, c => isWordChar c

/-- Regex AST (the constructs used by the source patterns). -/
inductive Rx where
  | eps : Rx
  | chr : Char → Rx
  | dot : Rx
  | anyCh : Rx
  | cls : Bool → List ClsItem → Rx
  | seq : Rx → Rx → Rx
  | alt : Rx → Rx → Rx
  | star : Rx → Rx
  | starLazy : Rx → Rx
  | opt : Rx → Rx
  | wordB : Rx
  | nla : Rx → Rx
  | grp : Nat → Rx → Rx
deriving DecidableEq

/-- A successful match state: consumed input (reversed), remaining input,
captures (newest first). -/
abbrev MRes := List Char × List Char × List (Nat × String)

/-- The backtracking matcher.  `pre` is the already-consumed input in reverse
(used by `\b`), `rest` the remainder, `k` the continuation.  Ordered
alternation tries the left branch first; greedy quantifiers prefer to
consume, lazy ones prefer not to; a quantifier iteration that consumes
nothing fails (the ECMAScript `RepeatMatcher` empty-match rule). -/
def Rx.mat (ci : Bool) :
    Nat → Rx → List Char → List Char → List (Nat × String) →
    (List Char → List Char → List (Nat × String) → Option MRes) → Option MRes
  | 0, _, _, _, _, _ => none
  | _ + 1, .eps, pre, rest, caps, k => k pre rest caps
  | _ + 1, .chr c, pre, rest, caps, k =>
      match rest with
      | [] => none
      | x :: xs => if charEqCI ci c x then k (x :: pre) xs caps else none
  | _ + 1, .dot, pre, rest, caps, k =>
      match rest with
      | [] => none
      | x :: xs => if isLineTerm x then none else k (x :: pre) xs caps
  | _ + 1, .anyCh, pre, rest, caps, k =>
      match rest with
      | [] => none
      | x :: xs => k (x :: pre) xs caps
  | _ + 1, .cls neg items, pre, rest, caps, k =>
      match rest with
      | [] => none
      | x :: xs =>
          if (items.any (fun it => clsItemMatch ci it x)) ≠ neg then
            k (x :: pre) xs caps
          else none
  | fuel + 1, .seq a b, pre, rest, caps, k =>
      Rx.mat ci fuel a pre rest caps (fun pre' rest' caps' =>
        Rx.mat ci fuel b pre' rest' caps' k)
  | fuel + 1, .alt a b, pre, rest, caps, k =>
      match Rx.mat ci fuel a pre rest caps k with
      | some v => some v
      | none => Rx.mat ci fuel b pre rest caps k
  | fuel + 1, .star r, pre, rest, caps, k =>
      match Rx.mat ci fuel r pre rest caps (fun pre' rest' caps' =>
          if rest'.length < rest.length then
            Rx.mat ci fuel (.star r) pre' rest' caps' k
          else none) with
      | some v => some v
      | none => k pre rest caps
  | fuel + 1, .starLazy r, pre, rest, caps, k =>
      match k pre rest caps with
      | some v => some v
      | none =>
          Rx.mat ci fuel r pre rest caps (fun pre' rest' caps' =>
            if rest'.length < rest.length then
              Rx.mat ci fuel (.starLazy r) pre' rest' caps' k
            else none)
  | fuel + 1, .opt r, pre, rest, caps, k =>
      match Rx.mat ci fuel r pre rest caps k with
      | some v => some v
      | none => k pre rest caps
  | _ + 1, .wordB, pre, rest, caps, k =>
      let lw := match pre with | [] => false | c :: _ => isWordChar c
      let rw := match rest with | [] => false | c :: _ => isWordChar c
      if lw ≠ rw then k pre rest caps else none
  | fuel + 1, .nla r, pre, rest, caps, k =>
      match Rx.mat ci fuel r pre rest caps (fun p r c => some (p, r, c)) with
      | some _ => none
      | none => k pre rest caps
  | fuel + 1, .grp i r, pre, rest, caps, k =>
      Rx.mat ci fuel r pre rest caps (fun pre' rest' caps' =>
        let cap := String.mk ((pre'.take (pre'.length - pre.length)).reverse)
        k pre' rest' ((i, cap) :: caps'))

/-- Structural size of a pattern, used to dimension the fuel. -/
def Rx.size : Rx → Nat
  | .eps | .chr _ | .dot | .anyCh | .cls _ _ | .wordB => 1
  | .seq a b | .alt a b => a.size + b.size + 1
  | .star r | .starLazy r | .opt r | .nla r | .grp _ r => r.size + 1

/-- Fuel that is sufficient for any single matching path of the source
patterns (each quantifier iteration consumes at least one character). -/
def rxFuel (r : Rx) (rest : List Char) : Nat :=
  (r.size + 2) * (rest.length + 2)

/-- Try to match `r` at the current position. -/
def matchAt (ci : Bool) (r : Rx) (pre rest : List Char) : Option MRes :=
  Rx.mat ci (rxFuel r rest) r pre rest [] (fun p rst c => some (p, rst, c))

/-- Scan for the leftmost match at or after the current position.  Returns
the consumed prefix at the match start together with the match state. -/
def searchFrom (ci : Bool) (r : Rx) : List Char → List Char →
    Option (List Char × MRes)
  | pre, rest =>
    match matchAt ci r pre rest with
    | some res => some (pre, res)
    | none =>
        match rest with
        | [] => none
        | x :: xs => searchFrom ci r (x :: pre) xs

/-- `pattern.test(s)` — does the pattern match anywhere? -/
def rxTest (ci : Bool) (r : Rx) (s : String) : Bool :=
  (searchFrom ci r [] s.data).isSome

/-- The global-replace loop behind `String.prototype.replace` with a `g`
pattern: repeatedly find the leftmost match, substitute `rep`, resume after
the match (advancing one character on an empty match). -/
def replaceLoop (ci : Bool) (r : Rx) (rep : List Char) :
    Nat → List Char → List Char → List Char
  | 0, _, rest => rest
  | fuel + 1, pre, rest =>
    match searchFrom ci r pre rest with
    | none => rest
    | some (preStart, (pre', rest', _)) =>
        let skipped := (preStart.take (preStart.length - pre.length)).reverse
        if pre'.length = preStart.length then
          match rest' with
          | [] => skipped ++ rep
          | x :: xs => skipped ++ rep ++ x :: replaceLoop ci r rep fuel (x :: pre') xs
        else
          skipped ++ rep ++ replaceLoop ci r rep fuel pre' rest'

/-- `s.replace(pattern, rep)` with a `g`-flagged pattern. -/
def rxReplaceAll (ci : Bool) (r : Rx) (rep : String) (s : String) : String :=
  String.mk (replaceLoop ci r rep.data (s.data.length + 1) [] s.data)

/-- The `exec` loop: all matches in order, each with its captures. -/
def capturesLoop (ci : Bool) (r : Rx) :
    Nat → List Char → List Char → List (List (Nat × String))
  | 0, _, _ => []
  | fuel + 1, pre, rest =>
    match searchFrom ci r pre rest with
    | none => []
    | some (preStart, (pre', rest', caps)) =>
        if pre'.length = preStart.length then
          match rest' with
          | [] => [caps]
          | x :: xs => caps :: capturesLoop ci r fuel (x :: pre') xs
        else
          caps :: capturesLoop ci r fuel pre' rest'

/-- Capture group 1 of every match (`""` when the group did not participate,
as with a JS `undefined` capture this is then discarded by the caller). -/
def rxAllCapture1 (ci : Bool) (r : Rx) (s : String) : List String :=
  (capturesLoop ci r (s.data.length + 1) [] s.data).map
    (fun caps => (((caps.find? (fun p => p.1 == 1)).map (·.2)).getD ""))

/-! ## Pattern construction helpers -/

def rstr (s : String) : Rx := s.data.foldr (fun c acc => .seq (.chr c) acc) .eps

def rseq (l : List Rx) : Rx := l.foldr .seq .eps

def ralt : List Rx → Rx
  | [] => .eps
  | [r] => r
  | r :: rs => .alt r (ralt rs)

/-- `r+` (greedy). -/
def rplus (r : Rx) : Rx := .seq r (.star r)

/-- `r{n}`. -/
def repN : Nat → Rx → Rx
  | 0, _ => .eps
  | n + 1, r => .seq r (repN n r)

/-- `r{0,n}` (greedy). -/
def upTo : Nat → Rx → Rx
  | 0, _ => .eps
  | n + 1, r => .opt (.seq r (upTo n r))

/-- `r{n,}` (greedy). -/
def atLeast (n : Nat) (r : Rx) : Rx := .seq (repN n r) (.star r)

/-- `\d` -/
def digitC : Rx := .cls false [.digit]

/-- `\s` -/
def spaceC : Rx := .cls false [.space]

/-- `\s+` -/
def splus : Rx := rplus spaceC

/-- `\s*` -/
def sstar : Rx := .star spaceC

/-- `\w+` -/
def wplus : Rx := rplus (.cls false [.word])

/-- The single-quote character (U+0027). -/
def sqCh : Char := Char.ofNat 39

/-! ## PII masker — `src/interceptors/inbound/pii-masker.ts` -/

structure PiiRule where
  pattern : Rx
  replacement : String

/-- `/[a-zA-Z0-9._%+\-]+@[a-zA-Z0-9.\-]+\.[a-zA-Z]{2,}/g` -/
def emailRx : Rx :=
  rseq [rplus (.cls false [.range 'a' 'z', .range 'A' 'Z', .range '0' '9',
          .single '.', .single '_', .single '%', .single '+', .single '-']),
        .chr '@',
        rplus (.cls false [.range 'a' 'z', .range 'A' 'Z', .range '0' '9',
          .single '.', .single '-']),
        .chr '.',
        atLeast 2 (.cls false [.range 'a' 'z', .range 'A' 'Z'])]

/-- `[\s\-]` -/
def ccSepC : Rx := .cls false [.space, .single '-']

/-- `/\b(?:4[0-9]{12}(?:[0-9]{3})?|5[1-5][0-9]{14}|3[47][0-9]{13}|6(?:011|5[0-9]{2})[0-9]{12})(?:[\s\-]?[0-9]{4})*\b/g` -/
def ccRx : Rx :=
  rseq [.wordB,
        ralt [rseq [.chr '4', repN 12 digitC, .opt (repN 3 digitC)],
              rseq [.chr '5', .cls false [.range '1' '5'], repN 14 digitC],
              rseq [.chr '3', .cls false [.single '4', .single '7'], repN 13 digitC],
              rseq [.chr '6', .alt (rstr "011") (rseq [.chr '5', repN 2 digitC]),
                    repN 12 digitC]],
        .star (rseq [.opt ccSepC, repN 4 digitC]),
        .wordB]

/-- `[-\s]` -/
def ssnSepC : Rx := .cls false [.single '-', .space]

/-- `/\b(?!000|666|9\d{2})\d{3}[-\s](?!00)\d{2}[-\s](?!0000)\d{4}\b/g` -/
def ssnRx : Rx :=
  rseq [.wordB,
        .nla (ralt [rstr "000", rstr "666", rseq [.chr '9', digitC, digitC]]),
        repN 3 digitC, ssnSepC,
        .nla (rstr "00"), repN 2 digitC, ssnSepC,
        .nla (rstr "0000"), repN 4 digitC, .wordB]

/-- `[-.\s]` -/
def phoneSepC : Rx := .cls false [.single '-', .single '.', .space]

/-- `/(?:\+?1[-.\s]?)?(?:\(?\d{3}\)?[-.\s]?)?\d{3}[-.\s]\d{4}\b/g` -/
def phoneRx : Rx :=
  rseq [.opt (rseq [.opt (.chr '+'), .chr '1', .opt phoneSepC]),
        .opt (rseq [.opt (.chr '('), repN 3 digitC, .opt (.chr ')'), .opt phoneSepC]),
        repN 3 digitC, phoneSepC, repN 4 digitC, .wordB]

/-- `PII_PATTERNS`, in source order. -/
def PII_PATTERNS : List PiiRule :=
  [⟨emailRx, "[EMAIL]"⟩, ⟨ccRx, "[CC]"⟩, ⟨ssnRx, "[SSN]"⟩, ⟨phoneRx, "[PHONE]"⟩]

/-- `maskText`: each pattern applied globally, in order. -/
def maskText (text : String) : String :=
  PII_PATTERNS.foldl (fun result p => rxReplaceAll false p.pattern p.replacement result) text

/-! ## Canonical types — `src/types/` -/

/-- `ViolationCode` (closed set). -/
inductive ViolationCode where
  | INJECTION_DETECTED
  | PII_DETECTED
  | BUDGET_EXCEEDED
  | PROVIDER_NOT_ALLOWED
  | SCHEMA_MISMATCH
  | TOOL_NOT_GROUNDED
  | HALLUCINATION_DETECTED
  | ADAPTER_ERROR
  | CONFIG_ERROR
deriving DecidableEq

/-- `InterceptorName` (closed set). -/
inductive InterceptorName where
  | InjectionScanner
  | PiiMasker
  | ProjectAlignmentChecker
  | SchemaEnforcer
  | DeterministicGrounder
  | HallucinationScraper
  | Pipeline
deriving DecidableEq

/-- `GuardrailViolation`.  The sanitized payload is a JS record. -/
structure GuardrailViolation where
  code : ViolationCode
  message : String
  interceptor : InterceptorName
  payload : Option (List (String × JsValue))
deriving DecidableEq

/-- `InterceptorResult<T>`: `{passed: true, value?: T}` or
`{passed: false, violations}`. -/
inductive InterceptorResult (α : Type) where
  | pass : Option α → InterceptorResult α
  | block : List GuardrailViolation → InterceptorResult α
deriving DecidableEq

/-- The `passed` discriminator. -/
def InterceptorResult.passed {α} : InterceptorResult α → Bool
  | .pass _ => true
  | .block _ => false

/-- The optional `value` carried by a pass (`undefined` on a block). -/
def InterceptorResult.value {α} : InterceptorResult α → Option α
  | .pass v => v
  | .block _ => none

/-- The `violations` carried by a block (`[]` viewed from a pass). -/
def InterceptorResult.violations {α} : InterceptorResult α → List GuardrailViolation
  | .pass _ => []
  | .block vs => vs

/-- `blockOne` from `interceptor-result.ts`. -/
def blockOne {α} (v : GuardrailViolation) : InterceptorResult α := .block [v]

/-- `ToolDefinition` (the `input_schema` is opaque to the core). -/
structure ToolDefinition where
  name : String
  description : String
  input_schema : JsValue
deriving DecidableEq

/-- Message roles (closed set). -/
inductive Role where
  | user
  | assistant
  | tool
deriving DecidableEq

/-- A content block: optional `text`, optional nested `content`, plus the
non-textual fields carried through by the masker's spread (`type`,
`tool_use_id`). -/
structure MessageContentBlock where
  type : Option String
  text : Option String
  content : Option String
  tool_use_id : Option String
deriving DecidableEq

/-- Message content: a plain string or a block list. -/
inductive MessageContent where
  | str : String → MessageContent
  | blocks : List MessageContentBlock → MessageContent
deriving DecidableEq

structure Message where
  role : Role
  content : MessageContent
deriving DecidableEq

/-- `UnifiedRequest` (the type file is compile-time only; shape per spec §3
and the type-shape tests).  The provider tag is a string as read by the
alignment checker's `includes` test. -/
structure UnifiedRequest where
  id : String
  provider : String
  model : String
  system : Option String
  messages : List Message
  tools : Option (List ToolDefinition)
  max_tokens : Option Nat
  session_id : Option String
deriving DecidableEq

/-- `SecurityTier`. -/
inductive SecurityTier where
  | STRICT
  | MODERATE
  | PERMISSIVE
deriving DecidableEq

/-- `AgnosticSettings`. -/
structure AgnosticSettings where
  redact_pii : Bool
  max_token_spend_per_call : JNum
  allowed_providers : List String
deriving DecidableEq

structure SafetyHooks where
  pre_flight : List String
  post_flight : List String
deriving DecidableEq

/-- `GuardrailsConfig`.  In TypeScript `schema_version` has the literal type
`1`; here it is a number together with the side condition `numEq 1` where a
theorem needs it. -/
structure GuardrailsConfig where
  project_name : String
  security_tier : SecurityTier
  schema_version : JNum
  agnostic_settings : AgnosticSettings
  safety_hooks : SafetyHooks
  dependency_whitelist : Option (List String)

/-! ## Number printing (for violation message strings only)

These stand in for JavaScript's float printing; the exact rendering of a
number inside a human-readable message is not the subject of any claim. -/

def jnumToString (q : JNum) : String :=
  if q.den == 1 then toString q.num else toString q.num ++ "/" ++ toString q.den

/-- `x.toFixed(6)` (round half up, nonnegative arguments in practice). -/
def jnumToFixed6 (q : JNum) : String :=
  let scaled : Int := (q.num * 2000000 + q.den).fdiv (2 * q.den)
  let ip : Int := scaled.fdiv 1000000
  let fp : Nat := (scaled - ip * 1000000).toNat
  let fs := toString fp
  let pad := String.mk (List.replicate (6 - fs.length) '0')
  toString ip ++ "." ++ pad ++ fs

/-! ## Injection scanner — `src/interceptors/inbound/injection-scanner.ts` -/

structure InjectionPattern where
  source : String
  rx : Rx

/-- `r?` on a single character. -/
def optCh (c : Char) : Rx := .opt (.chr c)

/-- The single-quote character as a string (used inside pattern sources). -/
def sqStr : String := String.mk [sqCh]

def injP1 : InjectionPattern :=
  ⟨"ignore\\s+(all\\s+)?(previous|prior|above|earlier)\\s+(instructions?|prompts?|context|commands?)",
   rseq [rstr "ignore", splus, .opt (rseq [rstr "all", splus]),
         ralt [rstr "previous", rstr "prior", rstr "above", rstr "earlier"], splus,
         ralt [.seq (rstr "instruction") (optCh 's'), .seq (rstr "prompt") (optCh 's'),
               rstr "context", .seq (rstr "command") (optCh 's')]]⟩

def injP2 : InjectionPattern :=
  ⟨"disregard\\s+(all\\s+)?(previous|prior|above|earlier)\\s+(instructions?|prompts?|context)",
   rseq [rstr "disregard", splus, .opt (rseq [rstr "all", splus]),
         ralt [rstr "previous", rstr "prior", rstr "above", rstr "earlier"], splus,
         ralt [.seq (rstr "instruction") (optCh 's'), .seq (rstr "prompt") (optCh 's'),
               rstr "context"]]⟩

def injP3 : InjectionPattern :=
  ⟨"forget\\s+(everything|all)\\s+(you(" ++ sqStr ++ "ve|\\s+have)\\s+been\\s+told|above|before)",
   rseq [rstr "forget", splus, ralt [rstr "everything", rstr "all"], splus,
         ralt [rseq [rstr "you",
                     .alt (rseq [.chr sqCh, rstr "ve"]) (rseq [splus, rstr "have"]),
                     splus, rstr "been", splus, rstr "told"],
               rstr "above", rstr "before"]]⟩

def injP4 : InjectionPattern :=
  ⟨"your\\s+(real|true|actual|new|primary)\\s+(role|purpose|goal|task|job|objective)\\s+is",
   rseq [rstr "your", splus,
         ralt [rstr "real", rstr "true", rstr "actual", rstr "new", rstr "primary"], splus,
         ralt [rstr "role", rstr "purpose", rstr "goal", rstr "task", rstr "job",
               rstr "objective"], splus, rstr "is"]⟩

def injP5 : InjectionPattern :=
  ⟨"you\\s+are\\s+(now|actually|really)\\s+(a|an)\\s+\\w+",
   rseq [rstr "you", splus, rstr "are", splus,
         ralt [rstr "now", rstr "actually", rstr "really"], splus,
         ralt [rstr "a", rstr "an"], splus, wplus]⟩

def injP6 : InjectionPattern :=
  ⟨"act\\s+as\\s+(if\\s+you\\s+(are|were)|a|an)\\s+\\w+\\s+(without|that\\s+ignores)",
   rseq [rstr "act", splus, rstr "as", splus,
         ralt [rseq [rstr "if", splus, rstr "you", splus, ralt [rstr "are", rstr "were"]],
               rstr "a", rstr "an"],
         splus, wplus, splus,
         ralt [rstr "without", rseq [rstr "that", splus, rstr "ignores"]]]⟩

def injP7 : InjectionPattern :=
  ⟨"as\\s+a\\s+reminder,?\\s+(your\\s+)?(real|actual|true|primary)\\s+task",
   rseq [rstr "as", splus, rstr "a", splus, rstr "reminder", optCh ',', splus,
         .opt (rseq [rstr "your", splus]),
         ralt [rstr "real", rstr "actual", rstr "true", rstr "primary"], splus,
         rstr "task"]⟩

def injP8 : InjectionPattern :=
  ⟨"the\\s+(real|actual|true)\\s+instructions?\\s+(are|is|follow)",
   rseq [rstr "the", splus, ralt [rstr "real", rstr "actual", rstr "true"], splus,
         rstr "instruction", optCh 's', splus,
         ralt [rstr "are", rstr "is", rstr "follow"]]⟩

def injP9 : InjectionPattern :=
  ⟨"\\[system\\][\\s\\S]\x7b0,50\x7d(ignore|override|forget|disregard)",
   rseq [.chr '[', rstr "system", .chr ']', upTo 50 .anyCh,
         ralt [rstr "ignore", rstr "override", rstr "forget", rstr "disregard"]]⟩

def injP10 : InjectionPattern :=
  ⟨"<\\/?system>", rseq [.chr '<', optCh '/', rstr "system", .chr '>']⟩

/-- `PATTERNS_ALL_TIERS`, in source order. -/
def PATTERNS_ALL_TIERS : List InjectionPattern :=
  [injP1, injP2, injP3, injP4, injP5, injP6, injP7, injP8, injP9, injP10]

def injP11 : InjectionPattern :=
  ⟨"pretend\\s+(that\\s+)?(you|your)\\s+(are|have\\s+no|lack|don" ++ sqStr ++
     "t\\s+have)\\s+(restrictions?|guidelines?|rules?|limits?)",
   rseq [rstr "pretend", splus, .opt (rseq [rstr "that", splus]),
         ralt [rstr "you", rstr "your"], splus,
         ralt [rstr "are", rseq [rstr "have", splus, rstr "no"], rstr "lack",
               rseq [rstr "don", .chr sqCh, rstr "t", splus, rstr "have"]],
         splus,
         ralt [.seq (rstr "restriction") (optCh 's'), .seq (rstr "guideline") (optCh 's'),
               .seq (rstr "rule") (optCh 's'), .seq (rstr "limit") (optCh 's')]]⟩

def injP12 : InjectionPattern :=
  ⟨"hypothetically,?\\s+(if\\s+you\\s+(were|had\\s+no)|speaking\\s+as)",
   rseq [rstr "hypothetically", optCh ',', splus,
         ralt [rseq [rstr "if", splus, rstr "you", splus,
                     ralt [rstr "were", rseq [rstr "had", splus, rstr "no"]]],
               rseq [rstr "speaking", splus, rstr "as"]]]⟩

def injP13 : InjectionPattern :=
  ⟨"in\\s+(this\\s+)?(scenario|roleplay|game|story|fiction),?\\s+(you\\s+are|your\\s+rules?\\s+are|ignore)",
   rseq [rstr "in", splus, .opt (rseq [rstr "this", splus]),
         ralt [rstr "scenario", rstr "roleplay", rstr "game", rstr "story", rstr "fiction"],
         optCh ',', splus,
         ralt [rseq [rstr "you", splus, rstr "are"],
               rseq [rstr "your", splus, rstr "rule", optCh 's', splus, rstr "are"],
               rstr "ignore"]]⟩

/-- `PATTERNS_STRICT_ONLY`, in source order. -/
def PATTERNS_STRICT_ONLY : List InjectionPattern :=
  [injP11, injP12, injP13]

/-- `extractTextContent`: system prompt (if truthy), then per message the
string content or each block's truthy `text` and `content`. -/
def extractTextContent (request : UnifiedRequest) : List String :=
  (match request.system with
   | some s => if s == "" then [] else [s]
   | none => []) ++
  request.messages.flatMap (fun msg =>
    match msg.content with
    | .str s => [s]
    | .blocks bs =>
        bs.flatMap (fun b =>
          (match b.text with
           | some t => if t == "" then [] else [t]
           | none => []) ++
          (match b.content with
           | some c => if c == "" then [] else [c]
           | none => [])))

/-- `scanForInjection`: first matching (text, pattern) pair blocks with a
single `INJECTION_DETECTED` violation; patterns are case-insensitive. -/
def scanForInjection (request : UnifiedRequest) (securityTier : SecurityTier) :
    InterceptorResult Unit :=
  let patterns :=
    if securityTier = .STRICT then PATTERNS_ALL_TIERS ++ PATTERNS_STRICT_ONLY
    else PATTERNS_ALL_TIERS
  let texts := extractTextContent request
  match texts.findSome? (fun text => patterns.find? (fun p => rxTest true p.rx text)) with
  | some p =>
      blockOne
        { code := .INJECTION_DETECTED,
          message := "Prompt injection pattern detected: " ++ p.source,
          interceptor := .InjectionScanner,
          payload := some [("request_id", .vstr request.id),
                           ("matched_pattern", .vstr p.source)] }
  | none => .pass none

/-! ## PII masker (continued) — request-level masking -/

/-- `maskContentBlock`: spread plus masked `text`/`content` when present. -/
def maskContentBlock (block : MessageContentBlock) : MessageContentBlock :=
  { block with
    text := block.text.map maskText,
    content := block.content.map maskText }

def maskMessage (msg : Message) : Message :=
  match msg.content with
  | .str s => { msg with content := .str (maskText s) }
  | .blocks bs => { msg with content := .blocks (bs.map maskContentBlock) }

/-- `maskPii`: always a pass; identity when `redactPii` is false, otherwise a
fresh request with masked system prompt and message contents. -/
def maskPii (request : UnifiedRequest) (redactPii : Bool) :
    InterceptorResult UnifiedRequest :=
  if !redactPii then
    .pass (some request)
  else
    .pass (some
      { request with
        system := request.system.map maskText,
        messages := request.messages.map maskMessage })

/-! ## Project alignment checker —
`src/interceptors/inbound/project-alignment-checker.ts` -/

/-- `Math.ceil(charCount / 4)` on a natural count. -/
def estimateTokensFromChars (charCount : Nat) : Nat := (charCount + 3) / 4

/-- Character count accumulated by `estimateRequestTokens` (system prompt if
truthy, then string contents and truthy block `text`/`content` lengths). -/
def requestCharCount (request : UnifiedRequest) : Nat :=
  (match request.system with
   | some s => if s == "" then 0 else s.length
   | none => 0) +
  (request.messages.map (fun msg =>
    match msg.content with
    | .str s => s.length
    | .blocks bs =>
        (bs.map (fun b =>
          (match b.text with
           | some t => if t == "" then 0 else t.length
           | none => 0) +
          (match b.content with
           | some c => if c == "" then 0 else c.length
           | none => 0))).sum)).sum

def estimateRequestTokens (request : UnifiedRequest) : Nat :=
  estimateTokensFromChars (requestCharCount request)

/-- `COST_PER_TOKEN = 15 / 1_000_000` USD. -/
def COST_PER_TOKEN : JNum := ⟨15, 1000000⟩

/-- `SkillRegistryClient` (the MOD-02 boundary): `hasSkill`, plus the
optional `validateArguments` used by the outbound grounder. -/
structure SkillRegistryClient where
  hasSkill : String → Bool
  validateArguments : Option (String → JsValue → Bool)

/-- Check 1 of `checkProjectAlignment`: provider allow-list. -/
def providerViolationsOf (request : UnifiedRequest) (config : GuardrailsConfig) :
    List GuardrailViolation :=
  if !(config.agnostic_settings.allowed_providers.contains request.provider) then
    [{ code := .PROVIDER_NOT_ALLOWED,
       message := "Provider \"" ++ request.provider ++ "\" is not in allowed_providers",
       interceptor := .ProjectAlignmentChecker,
       payload := some
         [("provider", .vstr request.provider),
          ("allowed", .varr (config.agnostic_settings.allowed_providers.map .vstr))] }]
  else []

/-- Check 2 of `checkProjectAlignment`: pre-flight cost ceiling. -/
def budgetViolationsOf (request : UnifiedRequest) (config : GuardrailsConfig) :
    List GuardrailViolation :=
  let estimatedTokens := estimateRequestTokens request
  let estimatedCost := (JNum.ofNat estimatedTokens).mul COST_PER_TOKEN
  if estimatedCost.bgt config.agnostic_settings.max_token_spend_per_call then
    [{ code := .BUDGET_EXCEEDED,
       message := "Estimated request cost $" ++ jnumToFixed6 estimatedCost ++
         " exceeds max_token_spend_per_call $" ++
         jnumToString config.agnostic_settings.max_token_spend_per_call,
       interceptor := .ProjectAlignmentChecker,
       payload := some
         [("estimated_tokens", .vnum (JNum.ofNat estimatedTokens)),
          ("estimated_cost_usd", .vnum estimatedCost),
          ("ceiling_usd", .vnum config.agnostic_settings.max_token_spend_per_call)] }]
  else []

/-- Check 3 of `checkProjectAlignment`: tool scope against the registry. -/
def toolScopeViolationsOf (request : UnifiedRequest)
    (skillRegistry : Option SkillRegistryClient) : List GuardrailViolation :=
  match skillRegistry, request.tools with
  | some reg, some tools =>
      tools.flatMap (fun tool =>
        if !(reg.hasSkill tool.name) then
          [{ code := .TOOL_NOT_GROUNDED,
             message := "Tool \"" ++ tool.name ++
               "\" is not registered in the Skill Registry",
             interceptor := .ProjectAlignmentChecker,
             payload := some [("tool_name", .vstr tool.name)] }]
        else [])
  | _, _ => []

/-- `checkProjectAlignment`: all three checks run; their violations are
collected (in source order) into a single block. -/
def checkProjectAlignment (request : UnifiedRequest) (config : GuardrailsConfig)
    (skillRegistry : Option SkillRegistryClient) : InterceptorResult Unit :=
  let violations := providerViolationsOf request config ++
    budgetViolationsOf request config ++ toolScopeViolationsOf request skillRegistry
  if violations.length > 0 then .block violations else .pass none

/-! ## A small JSON parser (for `JSON.parse` in the grounder) -/

def jsonSkipWs : List Char → List Char
  | c :: cs => if c = ' ' || c = '\t' || c = '\n' || c = '\x0d' then jsonSkipWs cs else c :: cs
  | [] => []

def hexDigitVal (c : Char) : Option Nat :=
  if '0' ≤ c && c ≤ '9' then some (c.toNat - 48)
  else if 'a' ≤ c && c ≤ 'f' then some (c.toNat - 87)
  else if 'A' ≤ c && c ≤ 'F' then some (c.toNat - 55)
  else none

def parseJsonStringAux : Nat → List Char → List Char → Option (String × List Char)
  | 0, _, _ => none
  | _ + 1, acc, '"' :: rest => some (String.mk acc.reverse, rest)
  | fuel + 1, acc, '\\' :: e :: rest =>
      if e = '"' then parseJsonStringAux fuel ('"' :: acc) rest
      else if e = '\\' then parseJsonStringAux fuel ('\\' :: acc) rest
      else if e = '/' then parseJsonStringAux fuel ('/' :: acc) rest
      else if e = 'b' then parseJsonStringAux fuel ('\x08' :: acc) rest
      else if e = 'f' then parseJsonStringAux fuel ('\x0c' :: acc) rest
      else if e = 'n' then parseJsonStringAux fuel ('\n' :: acc) rest
      else if e = 'r' then parseJsonStringAux fuel ('\x0d' :: acc) rest
      else if e = 't' then parseJsonStringAux fuel ('\t' :: acc) rest
      else if e = 'u' then
        match rest with
        | a :: b :: c :: d :: rest' =>
            match hexDigitVal a, hexDigitVal b, hexDigitVal c, hexDigitVal d with
            | some x, some y, some z, some w =>
                let n := ((x * 16 + y) * 16 + z) * 16 + w
                if _h : n.isValidChar then
                  parseJsonStringAux fuel (Char.ofNat n :: acc) rest'
                else none
            | _, _, _, _ => none
        | _ => none
      else none
  | _ + 1, _, _ => none

def digitsToNat (ds : List Char) : Nat :=
  ds.foldl (fun acc c => acc * 10 + (c.toNat - 48)) 0

def takeDigits (cs : List Char) : List Char × List Char :=
  (cs.takeWhile (fun c => '0' ≤ c && c ≤ '9'),
   cs.dropWhile (fun c => '0' ≤ c && c ≤ '9'))

/-- Parse a JSON number into an exact fraction. -/
def parseJsonNumber (cs : List Char) : Option (JNum × List Char) :=
  let (neg, cs1) := match cs with
    | '-' :: rest => (true, rest)
    | _ => (false, cs)
  let (intDs, cs2) := takeDigits cs1
  if intDs.isEmpty then none
  else
    let (fracDs, cs3) := match cs2 with
      | '.' :: rest =>
          let (ds, r) := takeDigits rest
          (ds, r)
      | _ => ([], cs2)
    let (expOk, expNeg, expDs, cs4) := match cs3 with
      | 'e' :: rest | 'E' :: rest =>
          match rest with
          | '-' :: r => let (ds, r') := takeDigits r; (!ds.isEmpty, true, ds, r')
          | '+' :: r => let (ds, r') := takeDigits r; (!ds.isEmpty, false, ds, r')
          | r => let (ds, r') := takeDigits r; (!ds.isEmpty, false, ds, r')
      | _ => (true, false, [], cs3)
    if !expOk then none
    else
      let mantissa : Int := digitsToNat (intDs ++ fracDs)
      let mantissa := if neg then -mantissa else mantissa
      let baseDen : Int := (10 : Int) ^ fracDs.length
      let e := digitsToNat expDs
      let q : JNum :=
        if expNeg then ⟨mantissa, baseDen * (10 : Int) ^ e⟩
        else ⟨mantissa * (10 : Int) ^ e, baseDen⟩
      some (q, cs4)

mutual

def parseJsonVal : Nat → List Char → Option (JsValue × List Char)
  | 0, _ => none
  | fuel + 1, cs =>
    match jsonSkipWs cs with
    | 'n' :: 'u' :: 'l' :: 'l' :: rest => some (.vnull, rest)
    | 't' :: 'r' :: 'u' :: 'e' :: rest => some (.vbool true, rest)
    | 'f' :: 'a' :: 'l' :: 's' :: 'e' :: rest => some (.vbool false, rest)
    | '"' :: rest =>
        (parseJsonStringAux (rest.length + 1) [] rest).map (fun (s, r) => (.vstr s, r))
    | '[' :: rest =>
        (match jsonSkipWs rest with
         | ']' :: rest' => some (.varr [], rest')
         | _ => (parseJsonArrItems fuel rest).map (fun (xs, r) => (.varr xs, r)))
    | '{' :: rest =>
        (match jsonSkipWs rest with
         | '}' :: rest' => some (.vobj [], rest')
         | _ => (parseJsonObjItems fuel rest).map (fun (fs, r) => (.vobj fs, r)))
    | cs' => (parseJsonNumber cs').map (fun (q, r) => (.vnum q, r))

def parseJsonArrItems : Nat → List Char → Option (List JsValue × List Char)
  | 0, _ => none
  | fuel + 1, cs =>
    match parseJsonVal fuel cs with
    | none => none
    | some (v, rest) =>
      match jsonSkipWs rest with
      | ',' :: rest' =>
          (parseJsonArrItems fuel rest').map (fun (xs, r) => (v :: xs, r))
      | ']' :: rest' => some ([v], rest')
      | _ => none

def parseJsonObjItems : Nat → List Char → Option (List (String × JsValue) × List Char)
  | 0, _ => none
  | fuel + 1, cs =>
    match jsonSkipWs cs with
    | '"' :: rest =>
      match parseJsonStringAux (rest.length + 1) [] rest with
      | none => none
      | some (k, rest1) =>
        match jsonSkipWs rest1 with
        | ':' :: rest2 =>
          match parseJsonVal fuel rest2 with
          | none => none
          | some (v, rest3) =>
            match jsonSkipWs rest3 with
            | ',' :: rest4 =>
                (parseJsonObjItems fuel rest4).map (fun (fs, r) => ((k, v) :: fs, r))
            | '}' :: rest4 => some ([(k, v)], rest4)
            | _ => none
        | _ => none
    | _ => none

end

/-- `JSON.parse` (returns `none` where it would throw). -/
def jsonParse (s : String) : Option JsValue :=
  match parseJsonVal (s.data.length + 2) s.data with
  | some (v, rest) => if jsonSkipWs rest = [] then some v else none
  | none => none

/-! ## Schema enforcer — `src/interceptors/outbound/schema-enforcer.ts` -/

/-- JS `String.prototype.trim` (whitespace and line terminators). -/
def jsTrim (s : String) : String :=
  String.mk (((s.data.dropWhile isJsSpace).reverse.dropWhile isJsSpace).reverse)

/-- Strict equality `v === q` against a number. -/
def jsStrictEqNum (v : JsValue) (q : JNum) : Bool :=
  match v with
  | .vnum p => p.numEq q
  | _ => false

/-- `VALID_FINISH_REASONS`. -/
def VALID_FINISH_REASONS : List String := ["stop", "tool_use", "length", "content_filter"]

/-- JS `String(v)` as used inside one diagnostic message (arrays abbreviated). -/
def jsValueDisplay : JsValue → String
  | .vundef => "undefined"
  | .vnull => "null"
  | .vbool b => if b then "true" else "false"
  | .vnum q => jnumToString q
  | .vstr s => s
  | .varr _ => "[array]"
  | .vobj _ => "[object Object]"

/-- The field-by-field checks of `enforceSchema` on an object value: every
failing field contributes one `SCHEMA_MISMATCH` violation, in source order. -/
def enforceSchemaViolations (raw : JsValue) (expectedSchemaVersion : JNum) :
    List GuardrailViolation :=
    let svViols : List GuardrailViolation :=
      if !(jsStrictEqNum (getField raw "schema_version") expectedSchemaVersion) then
        [{ code := .SCHEMA_MISMATCH,
           message := "schema_version must be " ++ jnumToString expectedSchemaVersion ++
             ", got " ++ jsValueDisplay (getField raw "schema_version"),
           interceptor := .SchemaEnforcer,
           payload := some [("field", .vstr "schema_version"),
                            ("received", getField raw "schema_version")] }]
      else []
    let idViols : List GuardrailViolation :=
      if !(jsTypeof (getField raw "id") == "string") ||
         jsTrim (asString (getField raw "id")) == "" then
        [{ code := .SCHEMA_MISMATCH,
           message := "\"id\" must be a non-empty string",
           interceptor := .SchemaEnforcer,
           payload := some [("field", .vstr "id"), ("received", getField raw "id")] }]
      else []
    let modelViols : List GuardrailViolation :=
      if !(jsTypeof (getField raw "model_used") == "string") then
        [{ code := .SCHEMA_MISMATCH,
           message := "\"model_used\" must be a string",
           interceptor := .SchemaEnforcer,
           payload := some [("field", .vstr "model_used")] }]
      else []
    let contentViols : List GuardrailViolation :=
      if !(getField raw "content" == JsValue.vnull) &&
         !(jsTypeof (getField raw "content") == "string") then
        [{ code := .SCHEMA_MISMATCH,
           message := "\"content\" must be a string or null",
           interceptor := .SchemaEnforcer,
           payload := some [("field", .vstr "content"),
                            ("received", .vstr (jsTypeof (getField raw "content")))] }]
      else []
    let tcViols : List GuardrailViolation :=
      match getField raw "tool_calls" with
      | .varr tcs =>
          tcs.enum.flatMap (fun (i, tc) =>
            (if jsFalsy tc || !(jsTypeof (getField tc "function_name") == "string") then
              [{ code := .SCHEMA_MISMATCH,
                 message := "tool_calls[" ++ toString i ++ "].function_name must be a string",
                 interceptor := .SchemaEnforcer,
                 payload := some
                   [("field", .vstr ("tool_calls[" ++ toString i ++ "].function_name"))] }]
            else []) ++
            (if jsFalsy tc || !(jsTypeof (getField tc "arguments") == "string") then
              [{ code := .SCHEMA_MISMATCH,
                 message := "tool_calls[" ++ toString i ++ "].arguments must be a JSON string",
                 interceptor := .SchemaEnforcer,
                 payload := some
                   [("field", .vstr ("tool_calls[" ++ toString i ++ "].arguments"))] }]
            else []))
      | _ =>
          [{ code := .SCHEMA_MISMATCH,
             message := "\"tool_calls\" must be an array",
             interceptor := .SchemaEnforcer,
             payload := some [("field", .vstr "tool_calls")] }]
    let frViols : List GuardrailViolation :=
      let fr := getField raw "finish_reason"
      let ok := match fr with
        | .vstr s => VALID_FINISH_REASONS.contains s
        | _ => false
      if !ok then
        [{ code := .SCHEMA_MISMATCH,
           message := "\"finish_reason\" must be one of: " ++
             String.intercalate ", " VALID_FINISH_REASONS,
           interceptor := .SchemaEnforcer,
           payload := some [("field", .vstr "finish_reason"), ("received", fr)] }]
      else []
    let usageViols : List GuardrailViolation :=
      let usage := getField raw "usage"
      if !(jsTypeof usage == "object") || usage == JsValue.vnull then
        [{ code := .SCHEMA_MISMATCH,
           message := "\"usage\" must be an object",
           interceptor := .SchemaEnforcer,
           payload := some [("field", .vstr "usage")] }]
      else
        (if !(jsTypeof (getField usage "input_tokens") == "number") then
          [{ code := .SCHEMA_MISMATCH, message := "\"usage.input_tokens\" must be a number",
             interceptor := .SchemaEnforcer, payload := none }]
         else []) ++
        (if !(jsTypeof (getField usage "output_tokens") == "number") then
          [{ code := .SCHEMA_MISMATCH, message := "\"usage.output_tokens\" must be a number",
             interceptor := .SchemaEnforcer, payload := none }]
         else []) ++
        (if !(jsTypeof (getField usage "cost_usd") == "number") then
          [{ code := .SCHEMA_MISMATCH, message := "\"usage.cost_usd\" must be a number",
             interceptor := .SchemaEnforcer, payload := none }]
         else [])
    svViols ++ idViols ++ modelViols ++ contentViols ++ tcViols ++ frViols ++ usageViols

/-- `enforceSchema`: a non-object blocks immediately; otherwise the collected
field violations block, and a pass carries the input value unchanged. -/
def enforceSchema (raw : JsValue) (expectedSchemaVersion : JNum) :
    InterceptorResult JsValue :=
  if !(jsTypeof raw == "object") || raw == JsValue.vnull then
    .block [{ code := .SCHEMA_MISMATCH, message := "Response is not an object",
              interceptor := .SchemaEnforcer, payload := none }]
  else
    let violations := enforceSchemaViolations raw expectedSchemaVersion
    if violations.length > 0 then .block violations else .pass (some raw)

/-! ## Deterministic grounder —
`src/interceptors/outbound/deterministic-grounder.ts` -/

/-- One `TOOL_NOT_GROUNDED` per unregistered name, unparsable arguments
string, or failed argument validation. -/
def groundingViolationsOf (toolCalls : List JsValue) (reg : SkillRegistryClient) :
    List GuardrailViolation :=
  toolCalls.flatMap (fun toolCall =>
        let fn := asString (getField toolCall "function_name")
        if !(reg.hasSkill fn) then
          [{ code := .TOOL_NOT_GROUNDED,
             message := "Tool \"" ++ fn ++ "\" is not registered in the Skill Registry",
             interceptor := .DeterministicGrounder,
             payload := some [("function_name", .vstr fn),
                              ("tool_call_id", getField toolCall "id")] }]
        else
          match reg.validateArguments with
          | none => []
          | some validate =>
            match jsonParse (asString (getField toolCall "arguments")) with
            | none =>
                [{ code := .TOOL_NOT_GROUNDED,
                   message := "Tool \"" ++ fn ++ "\" arguments are not valid JSON",
                   interceptor := .DeterministicGrounder,
                   payload := some [("function_name", .vstr fn),
                                    ("raw_arguments", getField toolCall "arguments")] }]
            | some parsedArgs =>
                if !(validate fn parsedArgs) then
                  [{ code := .TOOL_NOT_GROUNDED,
                     message := "Tool \"" ++ fn ++ "\" arguments failed schema validation",
                     interceptor := .DeterministicGrounder,
                     payload := some [("function_name", .vstr fn)] }]
                else [])

/-- `groundToolCalls`: pass when there are no tool calls or no registry;
otherwise the collected grounding violations block. -/
def groundToolCalls (response : JsValue) (skillRegistry : Option SkillRegistryClient) :
    InterceptorResult JsValue :=
  let toolCalls := asArray (getField response "tool_calls")
  if toolCalls.length == 0 then .pass (some response)
  else
    match skillRegistry with
    | none => .pass (some response)
    | some reg =>
      let violations := groundingViolationsOf toolCalls reg
      if violations.length > 0 then .block violations else .pass (some response)

/-! ## Hallucination scraper —
`src/interceptors/outbound/hallucination-scraper.ts` -/

/-- `IMPORT_FROM_PATTERN`:
`(?:import\s+.*?from|require\s*\()\s*['"]([^'"./][^'"]*)['"]` -/
def importFromRx : Rx :=
  rseq [.alt (rseq [rstr "import", splus, .starLazy .dot, rstr "from"])
             (rseq [rstr "require", sstar, .chr '(']),
        sstar,
        .cls false [.single sqCh, .single '"'],
        .grp 1 (rseq [.cls true [.single sqCh, .single '"', .single '.', .single '/'],
                      .star (.cls true [.single sqCh, .single '"'])]),
        .cls false [.single sqCh, .single '"']]

def splitSlashAux : List Char → List Char → List (List Char)
  | [], acc => [acc.reverse]
  | '/' :: rest, acc => acc.reverse :: splitSlashAux rest []
  | c :: rest, acc => splitSlashAux rest (c :: acc)

/-- `raw.split("/")`. -/
def splitSlash (raw : String) : List (List Char) := splitSlashAux raw.data []

/-- The package root of a specifier: scoped packages keep the first two
`/`-separated segments, bare packages the first. -/
def packageRootOf (raw : String) : String :=
  match raw.data with
  | '@' :: _ =>
      match splitSlash raw with
      | a :: b :: _ => String.mk (a ++ '/' :: b)
      | [a] => String.mk a
      | [] => ""
  | _ => String.mk ((splitSlash raw).headD raw.data)

/-- `extractImports`: package roots of all captured specifiers, in match
order (a falsy capture is skipped). -/
def extractImports (text : String) : List String :=
  (rxAllCapture1 false importFromRx text).flatMap (fun raw =>
    if raw == "" then [] else [packageRootOf raw])

/-- `scrapeHallucinations`: disabled on an empty whitelist; pass on falsy
content; otherwise one `HALLUCINATION_DETECTED` per extracted root missing
from the whitelist. -/
def hallucinationViolationsOf (imports : List String)
    (dependencyWhitelist : List String) : List GuardrailViolation :=
  imports.flatMap (fun pkg =>
    if !(dependencyWhitelist.contains pkg) then
      [{ code := .HALLUCINATION_DETECTED,
         message := "Import \"" ++ pkg ++ "\" is not in the dependency whitelist",
         interceptor := .HallucinationScraper,
         payload := some [("package", .vstr pkg)] }]
    else [])

/-- `scrapeHallucinations` proper. -/
def scrapeHallucinations (response : JsValue) (dependencyWhitelist : List String) :
    InterceptorResult JsValue :=
  if dependencyWhitelist.length == 0 then .pass (some response)
  else if jsFalsy (getField response "content") then .pass (some response)
  else
    let violations := hallucinationViolationsOf
      (extractImports (asString (getField response "content"))) dependencyWhitelist
    if violations.length > 0 then .block violations else .pass (some response)

/-! ## Adapter contract and pipeline — `src/pipeline/pipeline.ts` -/

/-- A thrown JS value: either a `GuardrailViolation`-shaped object (detected
by `isGuardrailViolation`) or any other error, reduced to its message
string. -/
inductive ThrownValue where
  | violationValue : GuardrailViolation → ThrownValue
  | errorValue : String → ThrownValue
deriving DecidableEq

/-- The `catch` clause of `runPipeline`: a violation-shaped thrown value is
kept, anything else is wrapped as `ADAPTER_ERROR` from the pipeline. -/
def thrownToViolation : ThrownValue → GuardrailViolation
  | .violationValue v => v
  | .errorValue msg =>
      { code := .ADAPTER_ERROR, message := msg, interceptor := .Pipeline, payload := none }

/-- The four-method adapter contract (`IAdapter`).  Each method may throw;
provider-shaped values are opaque JS values. -/
structure IAdapter where
  transformRequest : UnifiedRequest → Except ThrownValue JsValue
  execute : JsValue → Except ThrownValue JsValue
  transformResponse : JsValue → String → Except ThrownValue JsValue
  validateCapabilities : String → Bool

structure PipelineOptions where
  skillRegistry : Option SkillRegistryClient

structure PipelineResult where
  response : JsValue
  violations : List GuardrailViolation

/-- `makeBlockedResponse` (the `violations` argument is accepted and, as in
the source, unused). -/
def makeBlockedResponse (requestId : String) (_violations : List GuardrailViolation) :
    JsValue :=
  .vobj [("schema_version", .vnum ⟨1, 1⟩),
         ("id", .vstr requestId),
         ("model_used", .vstr "guardrail"),
         ("content", .vnull),
         ("tool_calls", .varr []),
         ("finish_reason", .vstr "content_filter"),
         ("usage", .vobj [("input_tokens", .vnum ⟨0, 1⟩),
                          ("output_tokens", .vnum ⟨0, 1⟩),
                          ("cost_usd", .vnum ⟨0, 1⟩)])]

/-- Observable pipeline events, used to state the temporal claims ("the
adapter is never invoked after an inbound block").  `true` on a stage event
means the stage blocked. -/
inductive StageEvent where
  | injection : Bool → StageEvent
  | piiMask : StageEvent
  | alignment : Bool → StageEvent
  | transformRequestCall : StageEvent
  | executeCall : StageEvent
  | adapterFailure : StageEvent
  | transformResponseCall : StageEvent
  | schemaCheck : Bool → StageEvent
  | grounding : Bool → StageEvent
  | hallucination : Bool → StageEvent
deriving DecidableEq

/-- Did this event record a blocking outcome? -/
def StageEvent.isBlock : StageEvent → Bool
  | .injection b => b
  | .alignment b => b
  | .adapterFailure => true
  | .schemaCheck b => b
  | .grounding b => b
  | .hallucination b => b
  | _ => false

/-- The working request after stage 2:
`piiResult.passed && piiResult.value ? piiResult.value : request`. -/
def workingRequest (request : UnifiedRequest) (config : GuardrailsConfig) :
    UnifiedRequest :=
  match maskPii request config.agnostic_settings.redact_pii with
  | .pass (some v) => v
  | _ => request

/-- `runPipeline`.  The result is paired with the event trace; a thrown
exception that escapes (only possible from `adapter.transformResponse`,
which the source calls outside its `try`) appears as `Except.error`. -/
def runPipeline (request : UnifiedRequest) (adapter : IAdapter)
    (config : GuardrailsConfig) (options : PipelineOptions) :
    Except ThrownValue (PipelineResult × List StageEvent) :=
  -- 1. Injection scanner (operates on the original request)
  match scanForInjection request config.security_tier with
  | .block vs =>
      .ok ({ response := makeBlockedResponse request.id vs, violations := vs },
           [.injection true])
  | .pass _ =>
    -- 2. PII masker (produces a new, masked request)
    let maskedRequest := workingRequest request config
    -- 3. Project alignment (budget, provider, tool scope)
    match checkProjectAlignment maskedRequest config options.skillRegistry with
    | .block vs =>
        .ok ({ response := makeBlockedResponse request.id vs, violations := vs },
             [.injection false, .piiMask, .alignment true])
    | .pass _ =>
      -- ADAPTER: transform → execute (inside try/catch)
      match adapter.transformRequest maskedRequest with
      | .error e =>
          let v := thrownToViolation e
          .ok ({ response := makeBlockedResponse request.id [v], violations := [v] },
               [.injection false, .piiMask, .alignment false,
                .transformRequestCall, .adapterFailure])
      | .ok providerRequest =>
        match adapter.execute providerRequest with
        | .error e =>
            let v := thrownToViolation e
            .ok ({ response := makeBlockedResponse request.id [v], violations := [v] },
                 [.injection false, .piiMask, .alignment false,
                  .transformRequestCall, .executeCall, .adapterFailure])
        | .ok rawProviderResponse =>
          -- transformResponse; a throw here is NOT caught by the source
          match adapter.transformResponse rawProviderResponse request.id with
          | .error e => .error e
          | .ok unifiedResponse =>
            -- 4. Schema enforcer
            match enforceSchema unifiedResponse config.schema_version with
            | .block vs =>
                .ok ({ response := makeBlockedResponse request.id vs, violations := vs },
                     [.injection false, .piiMask, .alignment false,
                      .transformRequestCall, .executeCall, .transformResponseCall,
                      .schemaCheck true])
            | .pass vOpt =>
              let validatedResponse := vOpt.getD JsValue.vundef
              -- 5. Deterministic grounding
              match groundToolCalls validatedResponse options.skillRegistry with
              | .block vs =>
                  .ok ({ response := makeBlockedResponse request.id vs, violations := vs },
                       [.injection false, .piiMask, .alignment false,
                        .transformRequestCall, .executeCall, .transformResponseCall,
                        .schemaCheck false, .grounding true])
              | .pass gOpt =>
                let groundedResponse := gOpt.getD JsValue.vundef
                -- 6. Hallucination scraper
                let whitelist := config.dependency_whitelist.getD []
                match scrapeHallucinations groundedResponse whitelist with
                | .block vs =>
                    .ok ({ response :=
                             setField groundedResponse "finish_reason"
                               (.vstr "content_filter"),
                           violations := vs },
                         [.injection false, .piiMask, .alignment false,
                          .transformRequestCall, .executeCall, .transformResponseCall,
                          .schemaCheck false, .grounding false, .hallucination true])
                | .pass _ =>
                    .ok ({ response := groundedResponse, violations := [] },
                         [.injection false, .piiMask, .alignment false,
                          .transformRequestCall, .executeCall, .transformResponseCall,
                          .schemaCheck false, .grounding false, .hallucination false])

/-! ## Basic lemmas about the embedding -/

@[simp] theorem InterceptorResult.passed_pass {α} (v : Option α) :
    (InterceptorResult.pass v).passed = true := rfl

@[simp] theorem InterceptorResult.passed_block {α} (vs : List GuardrailViolation) :
    (InterceptorResult.block (α := α) vs).passed = false := rfl

@[simp] theorem InterceptorResult.violations_pass {α} (v : Option α) :
    (InterceptorResult.pass v).violations = [] := rfl

@[simp] theorem InterceptorResult.violations_block {α} (vs : List GuardrailViolation) :
    (InterceptorResult.block (α := α) vs).violations = vs := rfl

@[simp] theorem InterceptorResult.value_pass {α} (v : Option α) :
    (InterceptorResult.pass v).value = v := rfl

@[simp] theorem getField_makeBlockedResponse_finish (rid : String)
    (vs : List GuardrailViolation) :
    getField (makeBlockedResponse rid vs) "finish_reason" = .vstr "content_filter" := rfl

@[simp] theorem getField_makeBlockedResponse_toolCalls (rid : String)
    (vs : List GuardrailViolation) :
    getField (makeBlockedResponse rid vs) "tool_calls" = .varr [] := rfl

@[simp] theorem getField_makeBlockedResponse_schemaVersion (rid : String)
    (vs : List GuardrailViolation) :
    getField (makeBlockedResponse rid vs) "schema_version" = .vnum ⟨1, 1⟩ := rfl

/-- A block produced by the injection scanner is never empty. -/
theorem scanForInjection_block_ne_nil {r : UnifiedRequest} {t : SecurityTier}
    {vs : List GuardrailViolation} (h : scanForInjection r t = .block vs) : vs ≠ [] := by
  unfold scanForInjection at h
  rcases hfind : (extractTextContent r).findSome?
      (fun text =>
        (if t = .STRICT then PATTERNS_ALL_TIERS ++ PATTERNS_STRICT_ONLY
         else PATTERNS_ALL_TIERS).find? (fun p => rxTest true p.rx text)) with _ | p <;>
    simp only [hfind, blockOne] at h
  · cases h
  · cases h; simp

/-- A block produced by the alignment checker is never empty. -/
theorem checkProjectAlignment_block_ne_nil {r : UnifiedRequest} {c : GuardrailsConfig}
    {reg : Option SkillRegistryClient} {vs : List GuardrailViolation}
    (h : checkProjectAlignment r c reg = .block vs) : vs ≠ [] := by
  simp only [checkProjectAlignment] at h
  split at h
  · rename_i hlen
    cases h
    intro hnil
    rw [hnil] at hlen
    simp at hlen
  · cases h

/-- A block produced by the schema enforcer is never empty. -/
theorem enforceSchema_block_ne_nil {raw : JsValue} {q : JNum}
    {vs : List GuardrailViolation} (h : enforceSchema raw q = .block vs) : vs ≠ [] := by
  simp only [enforceSchema] at h
  split at h
  · cases h; simp
  · split at h
    · rename_i hlen
      cases h
      intro hnil
      rw [hnil] at hlen
      simp at hlen
    · cases h

/-- A block produced by the grounder is never empty. -/
theorem groundToolCalls_block_ne_nil {v : JsValue} {reg : Option SkillRegistryClient}
    {vs : List GuardrailViolation} (h : groundToolCalls v reg = .block vs) : vs ≠ [] := by
  simp only [groundToolCalls] at h
  split at h
  · cases h
  · rcases reg with _ | r
    · simp only at h; cases h
    · simp only at h
      split at h
      · rename_i hlen
        cases h
        intro hnil
        rw [hnil] at hlen
        simp at hlen
      · cases h

/-- A block produced by the hallucination scraper is never empty. -/
theorem scrapeHallucinations_block_ne_nil {v : JsValue} {wl : List String}
    {vs : List GuardrailViolation} (h : scrapeHallucinations v wl = .block vs) : vs ≠ [] := by
  simp only [scrapeHallucinations] at h
  split at h
  · cases h
  · split at h
    · cases h
    · split at h
      · rename_i hlen
        cases h
        intro hnil
        rw [hnil] at hlen
        simp at hlen
      · cases h

/-- If the grounder passes it carries the response unchanged. -/
theorem groundToolCalls_pass_eq {v : JsValue} {reg : Option SkillRegistryClient}
    {w : Option JsValue} (h : groundToolCalls v reg = .pass w) : w = some v := by
  simp only [groundToolCalls] at h
  split at h
  · cases h; rfl
  · rcases reg with _ | r
    · simp only at h; cases h; rfl
    · simp only at h
      split at h
      · cases h
      · cases h; rfl

/-- If the scraper passes it carries the response unchanged. -/
theorem scrapeHallucinations_pass_eq {v : JsValue} {wl : List String}
    {w : Option JsValue} (h : scrapeHallucinations v wl = .pass w) : w = some v := by
  simp only [scrapeHallucinations] at h
  split at h
  · cases h; rfl
  · split at h
    · cases h; rfl
    · split at h
      · cases h
      · cases h; rfl

/-- If the schema enforcer passes it carries the input value unchanged. -/
theorem enforceSchema_pass_eq {raw : JsValue} {q : JNum}
    {w : Option JsValue} (h : enforceSchema raw q = .pass w) : w = some raw := by
  simp only [enforceSchema] at h
  split at h
  · cases h
  · split at h
    · cases h
    · cases h; rfl

/-! ## Lemmas on field access and list collection -/

theorem find?_map_replace (fs : List (String × JsValue)) (k : String) (x : JsValue)
    (h : fs.any (fun p => p.1 == k) = true) :
    ((fs.map (fun p => if p.1 == k then (k, x) else p)).find?
      (fun p => p.1 == k)) = some (k, x) := by
  induction fs with
  | nil => simp at h
  | cons a fs ih =>
      rw [List.map_cons]
      by_cases ha : (a.1 == k) = true
      · rw [if_pos ha]
        simp [List.find?_cons]
      · rw [if_neg ha]
        simp only [List.find?_cons, ha, Bool.false_eq_true, if_false]
        refine ih ?_
        simp only [List.any_cons] at h
        rcases Bool.or_eq_true_iff.mp h with h' | h'
        · exact absurd h' ha
        · exact h'

theorem find?_none_of_any_false (fs : List (String × JsValue)) (k : String)
    (h : fs.any (fun p => p.1 == k) = false) :
    fs.find? (fun p => p.1 == k) = none := by
  induction fs with
  | nil => rfl
  | cons a fs ih =>
      simp only [List.any_cons, Bool.or_eq_false_iff] at h
      simp only [List.find?_cons, h.1, Bool.false_eq_true, if_false]
      exact ih h.2

theorem find?_append_pairs (fs gs : List (String × JsValue)) (k : String) :
    (fs ++ gs).find? (fun p => p.1 == k) =
      ((fs.find? (fun p => p.1 == k)).or (gs.find? (fun p => p.1 == k))) := by
  induction fs with
  | nil => simp
  | cons a fs ih =>
      rw [List.cons_append]
      by_cases ha : (a.1 == k) = true
      · simp only [List.find?_cons, ha, if_true]
        rfl
      · simp only [List.find?_cons, ha, Bool.false_eq_true, if_false]
        exact ih

/-- Reading back the overridden key of an object spread. -/
theorem getField_setField_same (fs : List (String × JsValue)) (k : String) (x : JsValue) :
    getField (setField (.vobj fs) k x) k = x := by
  unfold setField
  by_cases h : fs.any (fun p => p.1 == k)
  · simp only [h, if_true]
    show ((((fs.map (fun p => if p.1 == k then (k, x) else p)).find?
      (fun p => p.1 == k)).map (fun p => p.2)).getD JsValue.vundef) = x
    rw [find?_map_replace fs k x h]
    rfl
  · simp only [Bool.not_eq_true] at h
    simp only [h, Bool.false_eq_true, if_false]
    show ((((fs ++ [(k, x)]).find? (fun p => p.1 == k)).map (fun p => p.2)).getD
      JsValue.vundef) = x
    rw [find?_append_pairs, find?_none_of_any_false fs k h]
    simp [List.find?_cons]

theorem find?_map_replace_other (fs : List (String × JsValue)) (k k' : String)
    (x : JsValue) (hne : k' ≠ k) :
    ((fs.map (fun p => if p.1 == k then (k, x) else p)).find? (fun p => p.1 == k')) =
      fs.find? (fun p => p.1 == k') := by
  have hkk' : (k == k') = false := by
    rw [beq_eq_false_iff_ne]
    exact fun hk => hne hk.symm
  induction fs with
  | nil => rfl
  | cons a fs ih =>
      rw [List.map_cons]
      by_cases ha : (a.1 == k) = true
      · have ha' : a.1 = k := by simpa using ha
        have h2 : (a.1 == k') = false := by rw [ha']; exact hkk'
        rw [if_pos ha]
        simp only [List.find?_cons, hkk', h2, Bool.false_eq_true, if_false]
        exact ih
      · rw [if_neg ha]
        by_cases hb : (a.1 == k') = true
        · simp only [List.find?_cons, hb, if_true]
        · simp only [List.find?_cons, hb, Bool.false_eq_true, if_false]
          exact ih

/-- Reading any other key of an object spread. -/
theorem getField_setField_other (fs : List (String × JsValue)) (k k' : String)
    (x : JsValue) (hne : k' ≠ k) :
    getField (setField (.vobj fs) k x) k' = getField (.vobj fs) k' := by
  have hkk' : (k == k') = false := by
    rw [beq_eq_false_iff_ne]
    exact fun hk => hne hk.symm
  unfold setField
  by_cases h : fs.any (fun p => p.1 == k)
  · simp only [h, if_true]
    show ((((fs.map (fun p => if p.1 == k then (k, x) else p)).find?
        (fun p => p.1 == k')).map (fun p => p.2)).getD JsValue.vundef) =
      getField (.vobj fs) k'
    rw [find?_map_replace_other fs k k' x hne]
    rfl
  · simp only [Bool.not_eq_true] at h
    simp only [h, Bool.false_eq_true, if_false]
    show ((((fs ++ [(k, x)]).find? (fun p => p.1 == k')).map (fun p => p.2)).getD
      JsValue.vundef) = getField (.vobj fs) k'
    rw [find?_append_pairs]
    simp only [List.find?_cons, hkk', Bool.false_eq_true, if_false, List.find?_nil]
    rw [Option.or_none]
    rfl

/-- Collecting an `if`-guarded singleton over a list is filtering. -/
theorem flatMap_if_singleton {α β : Type} (p : α → Bool) (f : α → β) (l : List α) :
    (l.flatMap fun a => if p a then [f a] else []) = (l.filter p).map f := by
  induction l with
  | nil => rfl
  | cons a l ih => by_cases h : p a <;> simp [h, ih]

/-! ## Shape facts provided by a schema-enforcer pass -/

theorem enforceSchema_pass_shape {raw : JsValue} {q : JNum} {w : Option JsValue}
    (h : enforceSchema raw q = .pass w) :
    (∃ fs, raw = .vobj fs) ∧
    jsStrictEqNum (getField raw "schema_version") q = true ∧
    (∃ s, getField raw "finish_reason" = .vstr s ∧ VALID_FINISH_REASONS.contains s) ∧
    (∃ tcs, getField raw "tool_calls" = .varr tcs) := by
  simp only [enforceSchema] at h
  split at h
  · cases h
  · rename_i hobj
    split at h
    · cases h
    · rename_i hlen
      have hnil : enforceSchemaViolations raw q = [] := by
        rcases hv : enforceSchemaViolations raw q with _ | ⟨v, vs⟩
        · rfl
        · rw [hv] at hlen; simp at hlen
      simp only [enforceSchemaViolations] at hnil
      simp only [List.append_eq_nil] at hnil
      obtain ⟨⟨⟨⟨⟨⟨hsv, _⟩, _⟩, _⟩, htc⟩, hfr⟩, _⟩ := hnil
      have hsv' : jsStrictEqNum (getField raw "schema_version") q = true := by
        by_cases hc : jsStrictEqNum (getField raw "schema_version") q
        · exact hc
        · simp [hc] at hsv
      refine ⟨?_, hsv', ?_, ?_⟩
      · -- raw is an object literal: typeof "object", not null, and the
        -- schema_version check rules out an array (whose fields are undefined)
        rcases raw with _ | _ | b | n | s | xs | fs
        · simp [jsTypeof] at hobj
        · simp [jsTypeof] at hobj
        · simp [jsTypeof] at hobj
        · simp [jsTypeof] at hobj
        · simp [jsTypeof] at hobj
        · exact absurd hsv' (by simp [getField, jsStrictEqNum])
        · exact ⟨fs, rfl⟩
      · rcases hfr2 : getField raw "finish_reason" with _ | _ | b | n | s | xs | gs
        · rw [hfr2] at hfr; simp at hfr
        · rw [hfr2] at hfr; simp at hfr
        · rw [hfr2] at hfr; simp at hfr
        · rw [hfr2] at hfr; simp at hfr
        · by_cases hc : VALID_FINISH_REASONS.contains s
          · exact ⟨s, rfl, hc⟩
          · exfalso
            rw [Bool.not_eq_true] at hc
            rw [hfr2] at hfr
            rw [if_pos (show (!(VALID_FINISH_REASONS.contains s)) = true by rw [hc]; rfl)]
              at hfr
            exact List.cons_ne_nil _ _ hfr
        · rw [hfr2] at hfr; simp at hfr
        · rw [hfr2] at hfr; simp at hfr
      · rcases htc2 : getField raw "tool_calls" with _ | _ | b | n | s | xs | gs
        · rw [htc2] at htc; simp at htc
        · rw [htc2] at htc; simp at htc
        · rw [htc2] at htc; simp at htc
        · rw [htc2] at htc; simp at htc
        · rw [htc2] at htc; simp at htc
        · exact ⟨xs, rfl⟩
        · rw [htc2] at htc; simp at htc

/-! ## Concrete fixtures (used by counterexamples and witnesses) -/

/-- A one-user-message request. -/
def fxReq (content : String) : UnifiedRequest :=
  { id := "req-1", provider := "anthropic", model := "model-a", system := none,
    messages := [{ role := .user, content := .str content }],
    tools := none, max_tokens := none, session_id := none }

/-- A request with an empty message sequence (passes inbound). -/
def fxEmptyReq : UnifiedRequest :=
  { id := "req-1", provider := "anthropic", model := "model-a", system := none,
    messages := [], tools := none, max_tokens := none, session_id := none }

def fxCfg : GuardrailsConfig :=
  { project_name := "Project-Alpha", security_tier := .STRICT,
    schema_version := ⟨1, 1⟩,
    agnostic_settings :=
      { redact_pii := true, max_token_spend_per_call := ⟨5, 100⟩,
        allowed_providers := ["anthropic", "openai"] },
    safety_hooks := { pre_flight := [], post_flight := [] },
    dependency_whitelist := none }

/-- A schema-valid canonical response carrying one extra, non-canonical
field. -/
def fxResp : JsValue :=
  .vobj [("schema_version", .vnum ⟨1, 1⟩), ("id", .vstr "req-1"),
         ("model_used", .vstr "model-a"), ("content", .vstr "Hi!"),
         ("tool_calls", .varr []), ("finish_reason", .vstr "stop"),
         ("usage", .vobj [("input_tokens", .vnum ⟨10, 1⟩),
                          ("output_tokens", .vnum ⟨8, 1⟩),
                          ("cost_usd", .vnum ⟨15, 100000⟩)]),
         ("extra_field", .vstr "preserved")]

/-- A stub adapter whose `execute` returns pre-canned data. -/
def fxAdapter : IAdapter :=
  { transformRequest := fun r => .ok (.vobj [("model", .vstr r.model)]),
    execute := fun v => .ok v,
    transformResponse := fun _ _ => .ok fxResp,
    validateCapabilities := fun _ => true }

/-- A stub adapter whose `transformResponse` throws. -/
def fxThrowingAdapter : IAdapter :=
  { transformRequest := fun r => .ok (.vobj [("model", .vstr r.model)]),
    execute := fun v => .ok v,
    transformResponse := fun _ _ => .error (.errorValue "boom"),
    validateCapabilities := fun _ => true }

/-! ## C1 — error surfacing of adapter failures -/

/-- C1 (code_bug evidence): `runPipeline` is *not* total in its
exception behaviour.  On a request that passes every inbound stage, an
adapter whose `transformResponse` throws makes `runPipeline` itself throw
(the call at pipeline.ts:88 sits outside the `try` of lines 72–86), instead
of returning the failure as data in the `(response, violations)` pair. -/
theorem runPipeline_transformResponse_throw_escapes :
    runPipeline fxEmptyReq fxThrowingAdapter fxCfg ⟨none⟩ =
      .error (.errorValue "boom") := rfl

/-! ## C2 — inbound blocks never reach the adapter -/

/-- C2: whenever the injection scanner or the project-alignment checker
blocks, the pipeline returns the synthesized blocked response and neither
`adapter.transformRequest` nor `adapter.execute` is ever invoked. -/
theorem runPipeline_inbound_block_skips_adapter
    (request : UnifiedRequest) (adapter : IAdapter) (config : GuardrailsConfig)
    (options : PipelineOptions)
    (h : (scanForInjection request config.security_tier).passed = false ∨
         (checkProjectAlignment (workingRequest request config) config
            options.skillRegistry).passed = false) :
    ∃ res tr, runPipeline request adapter config options = .ok (res, tr) ∧
      res.response = makeBlockedResponse request.id res.violations ∧
      StageEvent.transformRequestCall ∉ tr ∧ StageEvent.executeCall ∉ tr := by
  cases hscan : scanForInjection request config.security_tier with
  | block vs =>
      refine ⟨{ response := makeBlockedResponse request.id vs, violations := vs },
              [.injection true], ?_, rfl, by decide, by decide⟩
      simp only [runPipeline, hscan]
  | pass v =>
      have hpass : (scanForInjection request config.security_tier).passed = true := by
        rw [hscan]; rfl
      rcases h with h | h
      · rw [hpass] at h; cases h
      · cases halign : checkProjectAlignment (workingRequest request config) config
            options.skillRegistry with
        | block ws =>
            refine ⟨{ response := makeBlockedResponse request.id ws, violations := ws },
                    [.injection false, .piiMask, .alignment true], ?_, rfl,
                    by decide, by decide⟩
            simp only [runPipeline, hscan, halign]
        | pass w =>
            rw [halign] at h
            simp at h

/-! ## Exhaustive case analysis of a returning pipeline run -/

/-- Every `.ok` outcome of `runPipeline` is one of the eight execution
paths, with its exact result and event trace. -/
theorem runPipeline_cases
    (request : UnifiedRequest) (adapter : IAdapter) (config : GuardrailsConfig)
    (options : PipelineOptions) (res : PipelineResult) (tr : List StageEvent)
    (hrun : runPipeline request adapter config options = .ok (res, tr)) :
    (∃ vs, scanForInjection request config.security_tier = .block vs ∧
       res = ⟨makeBlockedResponse request.id vs, vs⟩ ∧ tr = [.injection true]) ∨
    (∃ vs, checkProjectAlignment (workingRequest request config) config
         options.skillRegistry = .block vs ∧
       res = ⟨makeBlockedResponse request.id vs, vs⟩ ∧
       tr = [.injection false, .piiMask, .alignment true]) ∨
    (∃ e, adapter.transformRequest (workingRequest request config) = .error e ∧
       res = ⟨makeBlockedResponse request.id [thrownToViolation e],
              [thrownToViolation e]⟩ ∧
       tr = [.injection false, .piiMask, .alignment false, .transformRequestCall,
             .adapterFailure]) ∨
    (∃ pr e, adapter.transformRequest (workingRequest request config) = .ok pr ∧
       adapter.execute pr = .error e ∧
       res = ⟨makeBlockedResponse request.id [thrownToViolation e],
              [thrownToViolation e]⟩ ∧
       tr = [.injection false, .piiMask, .alignment false, .transformRequestCall,
             .executeCall, .adapterFailure]) ∨
    (∃ pr raw resp vs, adapter.transformRequest (workingRequest request config) = .ok pr ∧
       adapter.execute pr = .ok raw ∧
       adapter.transformResponse raw request.id = .ok resp ∧
       enforceSchema resp config.schema_version = .block vs ∧
       res = ⟨makeBlockedResponse request.id vs, vs⟩ ∧
       tr = [.injection false, .piiMask, .alignment false, .transformRequestCall,
             .executeCall, .transformResponseCall, .schemaCheck true]) ∨
    (∃ pr raw resp vs, adapter.transformRequest (workingRequest request config) = .ok pr ∧
       adapter.execute pr = .ok raw ∧
       adapter.transformResponse raw request.id = .ok resp ∧
       enforceSchema resp config.schema_version = .pass (some resp) ∧
       groundToolCalls resp options.skillRegistry = .block vs ∧
       res = ⟨makeBlockedResponse request.id vs, vs⟩ ∧
       tr = [.injection false, .piiMask, .alignment false, .transformRequestCall,
             .executeCall, .transformResponseCall, .schemaCheck false,
             .grounding true]) ∨
    (∃ pr raw resp vs, adapter.transformRequest (workingRequest request config) = .ok pr ∧
       adapter.execute pr = .ok raw ∧
       adapter.transformResponse raw request.id = .ok resp ∧
       enforceSchema resp config.schema_version = .pass (some resp) ∧
       groundToolCalls resp options.skillRegistry = .pass (some resp) ∧
       scrapeHallucinations resp (config.dependency_whitelist.getD []) = .block vs ∧
       res = ⟨setField resp "finish_reason" (.vstr "content_filter"), vs⟩ ∧
       tr = [.injection false, .piiMask, .alignment false, .transformRequestCall,
             .executeCall, .transformResponseCall, .schemaCheck false,
             .grounding false, .hallucination true]) ∨
    (∃ pr raw resp, adapter.transformRequest (workingRequest request config) = .ok pr ∧
       adapter.execute pr = .ok raw ∧
       adapter.transformResponse raw request.id = .ok resp ∧
       enforceSchema resp config.schema_version = .pass (some resp) ∧
       groundToolCalls resp options.skillRegistry = .pass (some resp) ∧
       scrapeHallucinations resp (config.dependency_whitelist.getD []) =
         .pass (some resp) ∧
       res = ⟨resp, []⟩ ∧
       tr = [.injection false, .piiMask, .alignment false, .transformRequestCall,
             .executeCall, .transformResponseCall, .schemaCheck false,
             .grounding false, .hallucination false]) := by
  cases hscan : scanForInjection request config.security_tier with
  | block vs =>
      simp only [runPipeline, hscan, Except.ok.injEq, Prod.mk.injEq] at hrun
      exact Or.inl ⟨vs, by first | rfl | assumption, hrun.1.symm, hrun.2.symm⟩
  | pass v =>
  cases halign : checkProjectAlignment (workingRequest request config) config
      options.skillRegistry with
  | block vs =>
      simp only [runPipeline, hscan, halign, Except.ok.injEq, Prod.mk.injEq] at hrun
      exact Or.inr (Or.inl ⟨vs, by first | rfl | assumption, hrun.1.symm, hrun.2.symm⟩)
  | pass w =>
  cases htreq : adapter.transformRequest (workingRequest request config) with
  | error e =>
      simp only [runPipeline, hscan, halign, htreq, Except.ok.injEq, Prod.mk.injEq] at hrun
      exact Or.inr (Or.inr (Or.inl ⟨e, by first | rfl | assumption, hrun.1.symm, hrun.2.symm⟩))
  | ok pr =>
  cases hexec : adapter.execute pr with
  | error e =>
      simp only [runPipeline, hscan, halign, htreq, hexec, Except.ok.injEq,
        Prod.mk.injEq] at hrun
      exact Or.inr (Or.inr (Or.inr (Or.inl ⟨pr, e, by first | rfl | assumption, by first | rfl | assumption, hrun.1.symm, hrun.2.symm⟩)))
  | ok raw =>
  cases htresp : adapter.transformResponse raw request.id with
  | error e =>
      simp only [runPipeline, hscan, halign, htreq, hexec, htresp] at hrun
      cases hrun
  | ok resp =>
  cases hschema : enforceSchema resp config.schema_version with
  | block vs =>
      simp only [runPipeline, hscan, halign, htreq, hexec, htresp, hschema,
        Except.ok.injEq, Prod.mk.injEq] at hrun
      exact Or.inr (Or.inr (Or.inr (Or.inr (Or.inl
        ⟨pr, raw, resp, vs, by first | rfl | assumption, by first | rfl | assumption, by first | rfl | assumption, by first | rfl | assumption, hrun.1.symm, hrun.2.symm⟩))))
  | pass vOpt =>
  have hvopt : vOpt = some resp := enforceSchema_pass_eq hschema
  subst hvopt
  have hschema' : enforceSchema resp config.schema_version = .pass (some resp) := hschema
  cases hground : groundToolCalls resp options.skillRegistry with
  | block vs =>
      simp only [runPipeline, hscan, halign, htreq, hexec, htresp, hschema,
        Option.getD_some, hground, Except.ok.injEq, Prod.mk.injEq] at hrun
      exact Or.inr (Or.inr (Or.inr (Or.inr (Or.inr (Or.inl
        ⟨pr, raw, resp, vs, by first | rfl | assumption, by first | rfl | assumption, by first | rfl | assumption, hschema', by first | rfl | assumption, hrun.1.symm, hrun.2.symm⟩)))))
  | pass gOpt =>
  have hgopt : gOpt = some resp := groundToolCalls_pass_eq hground
  subst hgopt
  have hground' : groundToolCalls resp options.skillRegistry = .pass (some resp) := hground
  cases hscrape : scrapeHallucinations resp (config.dependency_whitelist.getD []) with
  | block vs =>
      simp only [runPipeline, hscan, halign, htreq, hexec, htresp, hschema,
        Option.getD_some, hground, hscrape, Except.ok.injEq, Prod.mk.injEq] at hrun
      exact Or.inr (Or.inr (Or.inr (Or.inr (Or.inr (Or.inr (Or.inl
        ⟨pr, raw, resp, vs, by first | rfl | assumption, by first | rfl | assumption, by first | rfl | assumption, hschema', hground', by first | rfl | assumption,
         hrun.1.symm, hrun.2.symm⟩))))))
  | pass sOpt =>
      have hsopt : sOpt = some resp := scrapeHallucinations_pass_eq hscrape
      subst hsopt
      simp only [runPipeline, hscan, halign, htreq, hexec, htresp, hschema,
        Option.getD_some, hground, hscrape, Except.ok.injEq, Prod.mk.injEq] at hrun
      exact Or.inr (Or.inr (Or.inr (Or.inr (Or.inr (Or.inr (Or.inr
        ⟨pr, raw, resp, by first | rfl | assumption, by first | rfl | assumption, by first | rfl | assumption, hschema', hground', by first | rfl | assumption,
         hrun.1.symm, hrun.2.symm⟩))))))

/-! ## Numeric-equality transfer (the TS literal type `schema_version : 1`) -/

theorem JNum.numEq_one_trans {p q : JNum} (hq : q.WF) (hpq : p.numEq q = true)
    (hq1 : q.numEq (JNum.ofNat 1) = true) : p.numEq (JNum.ofNat 1) = true := by
  unfold JNum.numEq JNum.ofNat at *
  simp only [beq_iff_eq] at *
  have hd : q.den ≠ 0 := by
    unfold JNum.WF at hq
    omega
  have hnum : q.num = q.den := by simpa using hq1
  rw [hnum] at hpq
  have hcancel : p.num * q.den = p.den * q.den := by rw [hpq]; ring
  have hmain : p.num = p.den := mul_right_cancel₀ hd hcancel
  simpa using hmain

theorem jsStrictEqNum_one_of_numEq {v : JsValue} {q : JNum} (hq : q.WF)
    (hq1 : q.numEq (JNum.ofNat 1) = true) (h : jsStrictEqNum v q = true) :
    jsStrictEqNum v (JNum.ofNat 1) = true := by
  cases v <;> simp only [jsStrictEqNum] at h ⊢
  any_goals exact h
  exact JNum.numEq_one_trans hq h hq1

/-! ## C3 — shape of every blocked response -/

/-- C3: every blocked run carries `finish_reason = "content_filter"`; its
tool-call sequence is empty except in the single hallucination-scraper case,
where the real response's body and tool calls are preserved and only
`finish_reason` is rewritten. -/
theorem runPipeline_blocked_response_shape
    (request : UnifiedRequest) (adapter : IAdapter) (config : GuardrailsConfig)
    (options : PipelineOptions) (res : PipelineResult) (tr : List StageEvent)
    (hrun : runPipeline request adapter config options = .ok (res, tr))
    (hviol : res.violations ≠ []) :
    getField res.response "finish_reason" = .vstr "content_filter" ∧
    (getField res.response "tool_calls" = .varr [] ∨
      ∃ g, scrapeHallucinations g (config.dependency_whitelist.getD []) =
             .block res.violations ∧
           res.response = setField g "finish_reason" (.vstr "content_filter") ∧
           getField res.response "tool_calls" = getField g "tool_calls" ∧
           getField res.response "content" = getField g "content") := by
  rcases runPipeline_cases request adapter config options res tr hrun with
      ⟨vs, hs, hres, htr⟩ | ⟨vs, hs, hres, htr⟩ | ⟨e, hs, hres, htr⟩ |
      ⟨pr, e, h1, h2, hres, htr⟩ | ⟨pr, raw, resp, vs, h1, h2, h3, h4, hres, htr⟩ |
      ⟨pr, raw, resp, vs, h1, h2, h3, h4, h5, hres, htr⟩ |
      ⟨pr, raw, resp, vs, h1, h2, h3, h4, h5, h6, hres, htr⟩ |
      ⟨pr, raw, resp, h1, h2, h3, h4, h5, h6, hres, htr⟩
  · subst hres; exact ⟨rfl, Or.inl rfl⟩
  · subst hres; exact ⟨rfl, Or.inl rfl⟩
  · subst hres; exact ⟨rfl, Or.inl rfl⟩
  · subst hres; exact ⟨rfl, Or.inl rfl⟩
  · subst hres; exact ⟨rfl, Or.inl rfl⟩
  · subst hres; exact ⟨rfl, Or.inl rfl⟩
  · -- hallucination-scraper block
    subst hres
    obtain ⟨⟨fs, hfs⟩, _, _, _⟩ := enforceSchema_pass_shape h4
    subst hfs
    refine ⟨getField_setField_same fs _ _, Or.inr ⟨.vobj fs, h6, rfl, ?_, ?_⟩⟩
    · exact getField_setField_other fs _ _ _ (by decide)
    · exact getField_setField_other fs _ _ _ (by decide)
  · subst hres; exact absurd rfl hviol

/-! ## C4 — universal result invariants -/

/-- C4: whenever `runPipeline` returns and the configuration's
`schema_version` denotes the literal `1` (as its TypeScript type
guarantees), the returned response has `schema_version === 1` and a
`finish_reason` from the closed set, and the violation list is empty exactly
when no stage blocked (equivalently: non-empty exactly when some stage
blocked). -/
theorem runPipeline_result_invariants
    (request : UnifiedRequest) (adapter : IAdapter) (config : GuardrailsConfig)
    (options : PipelineOptions) (res : PipelineResult) (tr : List StageEvent)
    (hrun : runPipeline request adapter config options = .ok (res, tr))
    (hWF : config.schema_version.WF)
    (hone : config.schema_version.numEq (JNum.ofNat 1) = true) :
    jsStrictEqNum (getField res.response "schema_version") (JNum.ofNat 1) = true ∧
    (∃ s, getField res.response "finish_reason" = .vstr s ∧
      VALID_FINISH_REASONS.contains s = true) ∧
    (res.violations = [] ↔ ∀ e ∈ tr, e.isBlock = false) := by
  rcases runPipeline_cases request adapter config options res tr hrun with
      ⟨vs, hs, hres, htr⟩ | ⟨vs, hs, hres, htr⟩ | ⟨e, hs, hres, htr⟩ |
      ⟨pr, e, h1, h2, hres, htr⟩ | ⟨pr, raw, resp, vs, h1, h2, h3, h4, hres, htr⟩ |
      ⟨pr, raw, resp, vs, h1, h2, h3, h4, h5, hres, htr⟩ |
      ⟨pr, raw, resp, vs, h1, h2, h3, h4, h5, h6, hres, htr⟩ |
      ⟨pr, raw, resp, h1, h2, h3, h4, h5, h6, hres, htr⟩
  · subst hres; subst htr
    exact ⟨rfl, ⟨"content_filter", rfl, rfl⟩,
      iff_of_false (scanForInjection_block_ne_nil hs) (by decide)⟩
  · subst hres; subst htr
    exact ⟨rfl, ⟨"content_filter", rfl, rfl⟩,
      iff_of_false (checkProjectAlignment_block_ne_nil hs) (by decide)⟩
  · subst hres; subst htr
    exact ⟨rfl, ⟨"content_filter", rfl, rfl⟩, iff_of_false (by simp) (by decide)⟩
  · subst hres; subst htr
    exact ⟨rfl, ⟨"content_filter", rfl, rfl⟩, iff_of_false (by simp) (by decide)⟩
  · subst hres; subst htr
    exact ⟨rfl, ⟨"content_filter", rfl, rfl⟩,
      iff_of_false (enforceSchema_block_ne_nil h4) (by decide)⟩
  · subst hres; subst htr
    exact ⟨rfl, ⟨"content_filter", rfl, rfl⟩,
      iff_of_false (groundToolCalls_block_ne_nil h5) (by decide)⟩
  · -- hallucination-scraper block
    subst hres; subst htr
    obtain ⟨⟨fs, hfs⟩, hsv, _, _⟩ := enforceSchema_pass_shape h4
    subst hfs
    refine ⟨?_, ⟨"content_filter", getField_setField_same fs _ _, rfl⟩,
      iff_of_false (scrapeHallucinations_block_ne_nil h6) (by decide)⟩
    rw [getField_setField_other fs _ _ _ (by decide)]
    exact jsStrictEqNum_one_of_numEq hWF hone hsv
  · -- full pass
    subst hres; subst htr
    obtain ⟨_, hsv, ⟨s, hfr, hsmem⟩, _⟩ := enforceSchema_pass_shape h4
    exact ⟨jsStrictEqNum_one_of_numEq hWF hone hsv, ⟨s, hfr, hsmem⟩,
      iff_of_true rfl (by decide)⟩

/-! ## C10 — the pass path returns the raw adapter value unrestricted -/

/-- C10: when the schema enforcer passes it carries the *exact* input value
(extra fields included), and on a fully passing run `runPipeline` returns
precisely the value produced by `adapter.transformResponse`. -/
theorem runPipeline_pass_preserves_raw_response
    (request : UnifiedRequest) (adapter : IAdapter) (config : GuardrailsConfig)
    (options : PipelineOptions) (res : PipelineResult) (tr : List StageEvent)
    (hrun : runPipeline request adapter config options = .ok (res, tr))
    (hpass : res.violations = []) :
    ∃ pr raw resp,
      adapter.transformRequest (workingRequest request config) = .ok pr ∧
      adapter.execute pr = .ok raw ∧
      adapter.transformResponse raw request.id = .ok resp ∧
      enforceSchema resp config.schema_version = .pass (some resp) ∧
      res.response = resp := by
  rcases runPipeline_cases request adapter config options res tr hrun with
      ⟨vs, hs, hres, htr⟩ | ⟨vs, hs, hres, htr⟩ | ⟨e, hs, hres, htr⟩ |
      ⟨pr, e, h1, h2, hres, htr⟩ | ⟨pr, raw, resp, vs, h1, h2, h3, h4, hres, htr⟩ |
      ⟨pr, raw, resp, vs, h1, h2, h3, h4, h5, hres, htr⟩ |
      ⟨pr, raw, resp, vs, h1, h2, h3, h4, h5, h6, hres, htr⟩ |
      ⟨pr, raw, resp, h1, h2, h3, h4, h5, h6, hres, htr⟩
  · subst hres; exact absurd hpass (scanForInjection_block_ne_nil hs)
  · subst hres; exact absurd hpass (checkProjectAlignment_block_ne_nil hs)
  · subst hres; simp at hpass
  · subst hres; simp at hpass
  · subst hres; exact absurd hpass (enforceSchema_block_ne_nil h4)
  · subst hres; exact absurd hpass (groundToolCalls_block_ne_nil h5)
  · subst hres; exact absurd hpass (scrapeHallucinations_block_ne_nil h6)
  · subst hres; exact ⟨pr, raw, resp, h1, h2, h3, h4, rfl⟩

/-- Witness for C2 at a concrete blocking input: content `"<system>"` trips
the context-poisoning pattern, and the run returns the synthesized blocked
response without any adapter call. -/
theorem runPipeline_inbound_block_skips_adapter_witness :
    ((scanForInjection (fxReq "<system>") fxCfg.security_tier).passed = false ∨
     (checkProjectAlignment (workingRequest (fxReq "<system>") fxCfg) fxCfg
        (PipelineOptions.mk none).skillRegistry).passed = false) ∧
    (∃ res tr, runPipeline (fxReq "<system>") fxAdapter fxCfg ⟨none⟩ = .ok (res, tr) ∧
      res.response = makeBlockedResponse (fxReq "<system>").id res.violations ∧
      StageEvent.transformRequestCall ∉ tr ∧ StageEvent.executeCall ∉ tr) :=
  ⟨Or.inl (by decide),
   runPipeline_inbound_block_skips_adapter _ fxAdapter fxCfg ⟨none⟩ (Or.inl (by decide))⟩

/-- Witness for C3 at a concrete blocked run. -/
theorem runPipeline_blocked_response_shape_witness :
    ∃ res tr, runPipeline (fxReq "<system>") fxAdapter fxCfg ⟨none⟩ = .ok (res, tr) ∧
      res.violations ≠ [] ∧
      getField res.response "finish_reason" = .vstr "content_filter" := by
  refine ⟨_, _, rfl, ?_, ?_⟩
  · decide
  · exact (runPipeline_blocked_response_shape (fxReq "<system>") fxAdapter fxCfg ⟨none⟩
      _ _ rfl (by decide)).1

/-- Witness for C4 at a concrete clean pass. -/
theorem runPipeline_result_invariants_witness :
    fxCfg.schema_version.WF ∧ fxCfg.schema_version.numEq (JNum.ofNat 1) = true ∧
    ∃ res tr, runPipeline (fxReq "Hello") fxAdapter fxCfg ⟨none⟩ = .ok (res, tr) ∧
      (jsStrictEqNum (getField res.response "schema_version") (JNum.ofNat 1) = true ∧
       (∃ s, getField res.response "finish_reason" = .vstr s ∧
         VALID_FINISH_REASONS.contains s = true) ∧
       (res.violations = [] ↔ ∀ e ∈ tr, e.isBlock = false)) := by
  refine ⟨by decide, by decide, _, _, rfl, ?_⟩
  exact runPipeline_result_invariants (fxReq "Hello") fxAdapter fxCfg ⟨none⟩
    _ _ rfl (by decide) (by decide)

/-- Witness for C10: a clean pass returns the adapter's value with its extra
non-canonical field intact. -/
theorem runPipeline_pass_preserves_raw_response_witness :
    ∃ res tr, runPipeline (fxReq "Hello") fxAdapter fxCfg ⟨none⟩ = .ok (res, tr) ∧
      res.violations = [] ∧
      (∃ pr raw resp,
        fxAdapter.transformRequest (workingRequest (fxReq "Hello") fxCfg) = .ok pr ∧
        fxAdapter.execute pr = .ok raw ∧
        fxAdapter.transformResponse raw (fxReq "Hello").id = .ok resp ∧
        enforceSchema resp fxCfg.schema_version = .pass (some resp) ∧
        res.response = resp) ∧
      getField res.response "extra_field" = .vstr "preserved" := by
  refine ⟨_, _, rfl, ?_, ?_, ?_⟩
  · decide
  · exact runPipeline_pass_preserves_raw_response (fxReq "Hello") fxAdapter fxCfg ⟨none⟩
      _ _ rfl (by decide)
  · decide

/-! ## C5 / C6 — the project-alignment checker -/

/-- The alignment checker's violation list is always the concatenation of
its three checks' lists (also on a pass, where all are empty). -/
theorem checkProjectAlignment_violations (r : UnifiedRequest) (c : GuardrailsConfig)
    (reg : Option SkillRegistryClient) :
    (checkProjectAlignment r c reg).violations =
      providerViolationsOf r c ++ budgetViolationsOf r c ++
        toolScopeViolationsOf r reg := by
  simp only [checkProjectAlignment]
  split
  · rfl
  · rename_i hlen
    rcases hv : providerViolationsOf r c ++ budgetViolationsOf r c ++
        toolScopeViolationsOf r reg with _ | ⟨x, xs⟩
    · rfl
    · rw [hv] at hlen; simp at hlen

/-- The alignment checker passes exactly when all three checks are clean. -/
theorem checkProjectAlignment_passed_iff (r : UnifiedRequest) (c : GuardrailsConfig)
    (reg : Option SkillRegistryClient) :
    (checkProjectAlignment r c reg).passed = true ↔
      providerViolationsOf r c ++ budgetViolationsOf r c ++
        toolScopeViolationsOf r reg = [] := by
  simp only [checkProjectAlignment]
  split
  · rename_i hlen
    simp only [InterceptorResult.passed_block, Bool.false_eq_true, false_iff]
    intro hnil
    rw [hnil] at hlen
    simp at hlen
  · rename_i hlen
    simp only [InterceptorResult.passed_pass, true_iff]
    rcases hv : providerViolationsOf r c ++ budgetViolationsOf r c ++
        toolScopeViolationsOf r reg with _ | ⟨x, xs⟩
    · rfl
    · rw [hv] at hlen; simp at hlen

theorem providerViolationsOf_codes (r : UnifiedRequest) (c : GuardrailsConfig) :
    ∀ v ∈ providerViolationsOf r c, v.code = .PROVIDER_NOT_ALLOWED := by
  unfold providerViolationsOf
  split
  · intro v hv
    simp only [List.mem_singleton] at hv
    subst hv
    rfl
  · intro v hv
    simp at hv

theorem toolScopeViolationsOf_codes (r : UnifiedRequest)
    (reg : Option SkillRegistryClient) :
    ∀ v ∈ toolScopeViolationsOf r reg, v.code = .TOOL_NOT_GROUNDED := by
  intro v hv
  unfold toolScopeViolationsOf at hv
  rcases reg with _ | g
  · rcases htools : r.tools with _ | ts <;> rw [htools] at hv <;> simp at hv
  · rcases htools : r.tools with _ | ts
    · rw [htools] at hv; simp at hv
    · rw [htools] at hv
      simp only [List.mem_flatMap] at hv
      obtain ⟨t, _, hv⟩ := hv
      by_cases hc : (!(g.hasSkill t.name)) = true
      · rw [if_pos hc] at hv
        simp only [List.mem_singleton] at hv
        subst hv
        rfl
      · rw [if_neg hc] at hv
        simp at hv

/-- `BUDGET_EXCEEDED` appears iff the checker's cost comparison fires. -/
theorem budgetViolationsOf_mem_iff (r : UnifiedRequest) (c : GuardrailsConfig) :
    (ViolationCode.BUDGET_EXCEEDED ∈
        (budgetViolationsOf r c).map GuardrailViolation.code) ↔
      ((JNum.ofNat (estimateRequestTokens r)).mul COST_PER_TOKEN).bgt
        c.agnostic_settings.max_token_spend_per_call = true := by
  simp only [budgetViolationsOf]
  split
  · rename_i hc
    simpa using hc
  · rename_i hc
    simp only [Bool.not_eq_true] at hc
    simp [hc]

/-- `⌈c / 4⌉` agrees with the integer computation `(c + 3) / 4`. -/
theorem ceil_div_four (c : Nat) : ⌈(c : ℚ) / 4⌉ = (((c + 3) / 4 : ℕ) : ℤ) := by
  have hz : (((c + 3) / 4 : ℕ) : ℤ) = ((c : ℤ) + 3) / 4 := by
    push_cast
    ring_nf
  rw [hz, Int.ceil_eq_iff]
  have h4 : (0 : ℚ) < 4 := by norm_num
  have key1 : 4 * (((c : ℤ) + 3) / 4) < (c : ℤ) + 4 := by omega
  have key2 : (c : ℤ) ≤ 4 * (((c : ℤ) + 3) / 4) := by omega
  constructor
  · rw [lt_div_iff₀ h4]
    have hq : ((4 * (((c : ℤ) + 3) / 4) : ℤ) : ℚ) < (((c : ℤ) + 4 : ℤ) : ℚ) := by
      exact_mod_cast key1
    push_cast at hq ⊢
    linarith
  · rw [div_le_iff₀ h4]
    have hq : (((c : ℤ) : ℤ) : ℚ) ≤ ((4 * (((c : ℤ) + 3) / 4) : ℤ) : ℚ) := by
      exact_mod_cast key2
    push_cast at hq ⊢
    linarith

/-- The denominator of the estimated cost is positive. -/
theorem estimatedCost_WF (n : Nat) : ((JNum.ofNat n).mul COST_PER_TOKEN).WF := by
  unfold JNum.WF JNum.mul JNum.ofNat COST_PER_TOKEN
  norm_num

/-- The rational value of the estimated cost. -/
theorem estimatedCost_toRat (n : Nat) :
    ((JNum.ofNat n).mul COST_PER_TOKEN).toRat = (n : ℚ) * (15 / 1000000) := by
  rw [JNum.mul_toRat, JNum.ofNat_toRat]
  unfold COST_PER_TOKEN JNum.toRat
  norm_num

/-- C5: the alignment checker emits `BUDGET_EXCEEDED` exactly when
`⌈total_characters / 4⌉ · (15 / 1 000 000)` strictly exceeds
`max_token_spend_per_call` (so an estimate exactly equal to the ceiling does
not block), where the character total sums the system prompt and all
message/block textual content. -/
theorem checkProjectAlignment_budget_iff
    (request : UnifiedRequest) (config : GuardrailsConfig)
    (skillRegistry : Option SkillRegistryClient)
    (hWF : config.agnostic_settings.max_token_spend_per_call.WF) :
    (ViolationCode.BUDGET_EXCEEDED ∈
        ((checkProjectAlignment request config skillRegistry).violations).map
          GuardrailViolation.code) ↔
      ((⌈(requestCharCount request : ℚ) / 4⌉ : ℚ) * (15 / 1000000) >
        config.agnostic_settings.max_token_spend_per_call.toRat) := by
  rw [checkProjectAlignment_violations]
  have hnoprov : ¬ (ViolationCode.BUDGET_EXCEEDED ∈
      (providerViolationsOf request config).map GuardrailViolation.code) := by
    intro hmem
    simp only [List.mem_map] at hmem
    obtain ⟨v, hv, hcode⟩ := hmem
    rw [providerViolationsOf_codes request config v hv] at hcode
    cases hcode
  have hnotool : ¬ (ViolationCode.BUDGET_EXCEEDED ∈
      (toolScopeViolationsOf request skillRegistry).map GuardrailViolation.code) := by
    intro hmem
    simp only [List.mem_map] at hmem
    obtain ⟨v, hv, hcode⟩ := hmem
    rw [toolScopeViolationsOf_codes request skillRegistry v hv] at hcode
    cases hcode
  rw [List.map_append, List.map_append, List.mem_append, List.mem_append]
  rw [or_iff_left hnotool, or_iff_right hnoprov]
  rw [budgetViolationsOf_mem_iff]
  unfold JNum.bgt
  rw [JNum.blt_iff_toRat hWF (estimatedCost_WF _)]
  rw [estimatedCost_toRat]
  unfold estimateRequestTokens
  have hcast : ((estimateTokensFromChars (requestCharCount request) : ℕ) : ℚ) =
      ((⌈(requestCharCount request : ℚ) / 4⌉ : ℤ) : ℚ) := by
    rw [ceil_div_four]
    unfold estimateTokensFromChars
    norm_cast
  rw [hcast, gt_iff_lt]

/-- Witness for C5 at a concrete configuration and request. -/
theorem checkProjectAlignment_budget_iff_witness :
    fxCfg.agnostic_settings.max_token_spend_per_call.WF ∧
    ((ViolationCode.BUDGET_EXCEEDED ∈
        ((checkProjectAlignment (fxReq "Hello") fxCfg none).violations).map
          GuardrailViolation.code) ↔
      ((⌈(requestCharCount (fxReq "Hello") : ℚ) / 4⌉ : ℚ) * (15 / 1000000) >
        fxCfg.agnostic_settings.max_token_spend_per_call.toRat)) :=
  ⟨by decide, checkProjectAlignment_budget_iff (fxReq "Hello") fxCfg none (by decide)⟩

/-- Claim-side condition: the provider allow-list check fails. -/
def providerCheckFails (r : UnifiedRequest) (c : GuardrailsConfig) : Bool :=
  !(c.agnostic_settings.allowed_providers.contains r.provider)

/-- Claim-side condition: the pre-flight cost ceiling check fails. -/
def budgetCheckFails (r : UnifiedRequest) (c : GuardrailsConfig) : Bool :=
  ((JNum.ofNat (estimateRequestTokens r)).mul COST_PER_TOKEN).bgt
    c.agnostic_settings.max_token_spend_per_call

/-- Claim-side: the tools the registry reports as absent (empty when no
registry is injected or the request carries no tools). -/
def ungroundedTools (r : UnifiedRequest) (reg : Option SkillRegistryClient) :
    List ToolDefinition :=
  match reg, r.tools with
  | some g, some tools => tools.filter (fun t => !(g.hasSkill t.name))
  | _, _ => []

/-- C6: the alignment checker always runs all three checks without
short-circuiting: its violation codes are exactly one `PROVIDER_NOT_ALLOWED`
when the allow-list check fails, one `BUDGET_EXCEEDED` when the cost check
fails, and one `TOOL_NOT_GROUNDED` per unregistered tool — all collected
into a single stage result, which passes exactly when all three checks are
clean. -/
theorem checkProjectAlignment_runs_all_checks
    (r : UnifiedRequest) (c : GuardrailsConfig) (reg : Option SkillRegistryClient) :
    ((checkProjectAlignment r c reg).violations).map GuardrailViolation.code =
      (if providerCheckFails r c then [ViolationCode.PROVIDER_NOT_ALLOWED] else []) ++
      (if budgetCheckFails r c then [ViolationCode.BUDGET_EXCEEDED] else []) ++
      (ungroundedTools r reg).map (fun _ => ViolationCode.TOOL_NOT_GROUNDED) ∧
    ((checkProjectAlignment r c reg).passed = true ↔
      providerCheckFails r c = false ∧ budgetCheckFails r c = false ∧
      ungroundedTools r reg = []) := by
  have hprov : (providerViolationsOf r c).map GuardrailViolation.code =
      (if providerCheckFails r c then [ViolationCode.PROVIDER_NOT_ALLOWED] else []) := by
    unfold providerViolationsOf providerCheckFails
    split <;> rfl
  have hbud : (budgetViolationsOf r c).map GuardrailViolation.code =
      (if budgetCheckFails r c then [ViolationCode.BUDGET_EXCEEDED] else []) := by
    simp only [budgetViolationsOf]
    unfold budgetCheckFails
    split <;> rfl
  have htool : (toolScopeViolationsOf r reg).map GuardrailViolation.code =
      (ungroundedTools r reg).map (fun _ => ViolationCode.TOOL_NOT_GROUNDED) := by
    unfold toolScopeViolationsOf ungroundedTools
    rcases reg with _ | g
    · rcases r.tools with _ | ts <;> rfl
    · rcases r.tools with _ | ts
      · rfl
      · dsimp only
        rw [flatMap_if_singleton]
        rw [List.map_map]
        rfl
  constructor
  · rw [checkProjectAlignment_violations, List.map_append, List.map_append,
      hprov, hbud, htool]
  · rw [checkProjectAlignment_passed_iff]
    constructor
    · intro hnil
      rcases List.append_eq_nil.mp hnil with ⟨h12, h3⟩
      rcases List.append_eq_nil.mp h12 with ⟨h1, h2⟩
      refine ⟨?_, ?_, ?_⟩
      · have := hprov
        rw [h1] at this
        by_cases hc : providerCheckFails r c
        · rw [if_pos hc] at this
          cases this
        · simpa using hc
      · have := hbud
        rw [h2] at this
        by_cases hc : budgetCheckFails r c
        · rw [if_pos hc] at this
          cases this
        · simpa using hc
      · have := htool
        rw [h3] at this
        exact (List.map_eq_nil_iff.mp this.symm)
    · rintro ⟨h1, h2, h3⟩
      have e1 : providerViolationsOf r c = [] := by
        unfold providerViolationsOf
        unfold providerCheckFails at h1
        rw [if_neg (by rw [h1]; simp)]
      have e2 : budgetViolationsOf r c = [] := by
        simp only [budgetViolationsOf]
        unfold budgetCheckFails at h2
        rw [if_neg (by rw [h2]; simp)]
      have e3 : toolScopeViolationsOf r reg = [] := by
        have := htool
        rw [h3] at this
        simp only [List.map_nil] at this
        exact List.map_eq_nil_iff.mp this
      rw [e1, e2, e3]
      rfl

/-! ## Claim C7 — idempotence of the PII masker -/

/-- Does some PII pattern still match somewhere in `s`? -/
def hasPiiMatch (s : String) : Bool :=
  PII_PATTERNS.any (fun p => rxTest false p.pattern s)

/-- Both textual fields of a content block are free of PII matches. -/
def blockFullyMasked (b : MessageContentBlock) : Bool :=
  b.text.all (fun s => !hasPiiMatch s) && b.content.all (fun s => !hasPiiMatch s)

/-- The textual content of a message is free of PII matches. -/
def messageFullyMasked (m : Message) : Bool :=
  match m.content with
  | .str s => !hasPiiMatch s
  | .blocks bs => bs.all blockFullyMasked

/-- Every textual field of the request is free of PII matches. -/
def requestFullyMasked (r : UnifiedRequest) : Bool :=
  r.system.all (fun s => !hasPiiMatch s) && r.messages.all messageFullyMasked

/-- A global replace on a string the pattern does not match is the
identity. -/
theorem rxReplaceAll_of_no_match {ci : Bool} {r : Rx} (rep : String) {s : String}
    (h : searchFrom ci r [] s.data = none) : rxReplaceAll ci r rep s = s := by
  rw [rxReplaceAll, replaceLoop, h]

/-- A failed `test` means the scan finds nothing. -/
theorem searchFrom_none_of_not_test {ci : Bool} {r : Rx} {s : String}
    (h : rxTest ci r s = false) : searchFrom ci r [] s.data = none := by
  cases hx : searchFrom ci r [] s.data with
  | none => rfl
  | some v => rw [rxTest, hx] at h; simp at h

/-- `maskText` leaves a string with no remaining PII match unchanged. -/
theorem maskText_of_no_match {s : String} (h : hasPiiMatch s = false) :
    maskText s = s := by
  rw [hasPiiMatch, PII_PATTERNS] at h
  simp only [List.any_cons, List.any_nil, Bool.or_false,
    Bool.or_eq_false_iff] at h
  obtain ⟨h1, h2, h3, h4⟩ := h
  have he := rxReplaceAll_of_no_match "[EMAIL]" (searchFrom_none_of_not_test h1)
  have hc := rxReplaceAll_of_no_match "[CC]" (searchFrom_none_of_not_test h2)
  have hs := rxReplaceAll_of_no_match "[SSN]" (searchFrom_none_of_not_test h3)
  have hp := rxReplaceAll_of_no_match "[PHONE]" (searchFrom_none_of_not_test h4)
  rw [maskText, PII_PATTERNS]
  simp only [List.foldl_cons, List.foldl_nil]
  rw [he, hc, hs, hp]

/-- A list map by a pointwise-identity function is the identity. -/
theorem list_map_id_of_mem {α : Type} {f : α → α} :
    ∀ {l : List α}, (∀ a ∈ l, f a = a) → l.map f = l
  | [], _ => rfl
  | a :: l, h => by
      rw [List.map_cons, h a (List.mem_cons_self a l),
        list_map_id_of_mem (fun b hb => h b (List.mem_cons_of_mem a hb))]

/-- Masking a fully-masked content block is the identity. -/
theorem maskContentBlock_of_fullyMasked {b : MessageContentBlock}
    (h : blockFullyMasked b = true) : maskContentBlock b = b := by
  rw [blockFullyMasked, Bool.and_eq_true] at h
  obtain ⟨ht, hc⟩ := h
  have et : b.text.map maskText = b.text := by
    cases hb : b.text with
    | none => rfl
    | some s =>
        rw [hb] at ht
        simp only [Option.all_some, Bool.not_eq_true'] at ht
        rw [Option.map_some', maskText_of_no_match ht]
  have ec : b.content.map maskText = b.content := by
    cases hb : b.content with
    | none => rfl
    | some s =>
        rw [hb] at hc
        simp only [Option.all_some, Bool.not_eq_true'] at hc
        rw [Option.map_some', maskText_of_no_match hc]
  rw [maskContentBlock, et, ec]

/-- Masking a fully-masked message is the identity. -/
theorem maskMessage_of_fullyMasked {m : Message}
    (h : messageFullyMasked m = true) : maskMessage m = m := by
  obtain ⟨role, content⟩ := m
  cases content with
  | str s =>
      rw [messageFullyMasked] at h
      dsimp only at h
      simp only [Bool.not_eq_true'] at h
      rw [maskMessage]
      dsimp only
      rw [maskText_of_no_match h]
  | blocks bs =>
      rw [messageFullyMasked] at h
      dsimp only at h
      rw [maskMessage]
      dsimp only
      have : bs.map maskContentBlock = bs :=
        list_map_id_of_mem (fun b hb =>
          maskContentBlock_of_fullyMasked (by
            rw [List.all_eq_true] at h
            exact h b hb))
      rw [this]

/-- Masking a fully-masked request is the identity (as a pass). -/
theorem maskPii_of_fullyMasked {r : UnifiedRequest}
    (h : requestFullyMasked r = true) : maskPii r true = .pass (some r) := by
  rw [requestFullyMasked, Bool.and_eq_true] at h
  obtain ⟨hs, hm⟩ := h
  have esys : r.system.map maskText = r.system := by
    cases hb : r.system with
    | none => rfl
    | some s =>
        rw [hb] at hs
        simp only [Option.all_some, Bool.not_eq_true'] at hs
        rw [Option.map_some', maskText_of_no_match hs]
  have emsgs : r.messages.map maskMessage = r.messages :=
    list_map_id_of_mem (fun m hmem =>
      maskMessage_of_fullyMasked (by
        rw [List.all_eq_true] at hm
        exact hm m hmem))
  have hstep : maskPii r true = .pass (some
      { r with system := r.system.map maskText,
               messages := r.messages.map maskMessage }) := rfl
  rw [hstep, esys, emsgs]

/-- C7 (counterexample): the PII masker is *not* idempotent.  On the text
`123-45-6789555-123-4567` the first pass consumes the trailing digits as a
phone number, leaving `123-45-6789[PHONE]` whose SSN prefix — now followed
by a word boundary — is redacted only by a second pass, yielding
`[SSN][PHONE]`. -/
theorem maskPii_not_idempotent :
    maskPii ((maskPii (fxReq "123-45-6789555-123-4567") true).value.getD
        (fxReq "123-45-6789555-123-4567")) true
      ≠ maskPii (fxReq "123-45-6789555-123-4567") true := by decide

/-- C7 (amended): the PII masker is idempotent on every request whose
once-masked form carries no remaining PII-pattern match: a second
application of `maskPii` returns exactly the once-masked result. -/
theorem maskPii_idempotent_of_fullyMasked (r : UnifiedRequest)
    (h : requestFullyMasked ((maskPii r true).value.getD r) = true) :
    maskPii ((maskPii r true).value.getD r) true = maskPii r true := by
  have hval : maskPii r true = .pass (some ((maskPii r true).value.getD r)) := rfl
  rw [maskPii_of_fullyMasked h]
  exact hval.symm

theorem maskPii_idempotent_of_fullyMasked_witness :
    requestFullyMasked ((maskPii (fxReq "Contact user@example.com") true).value.getD
        (fxReq "Contact user@example.com")) = true ∧
    maskPii ((maskPii (fxReq "Contact user@example.com") true).value.getD
        (fxReq "Contact user@example.com")) true
      = maskPii (fxReq "Contact user@example.com") true :=
  ⟨by decide,
   maskPii_idempotent_of_fullyMasked (fxReq "Contact user@example.com") (by decide)⟩

/-! ## Claim C8 — the masker's frame -/

/-- Mapping a list relates it pointwise to its source. -/
theorem forall₂_map_self {α : Type} (f : α → α) (P : α → α → Prop)
    (h : ∀ a, P (f a) a) : ∀ l : List α, List.Forall₂ P (l.map f) l
  | [] => .nil
  | a :: l => .cons (h a) (forall₂_map_self f P h l)

/-- `maskMessage` keeps the role and maps exactly the textual content
through `maskText`. -/
theorem maskMessage_frame (msg : Message) :
    (maskMessage msg).role = msg.role ∧
    ((∃ s, msg.content = .str s ∧ (maskMessage msg).content = .str (maskText s)) ∨
     (∃ bs mbs, msg.content = .blocks bs ∧
       (maskMessage msg).content = .blocks mbs ∧
       List.Forall₂ (fun (mb rb : MessageContentBlock) =>
         mb.type = rb.type ∧ mb.tool_use_id = rb.tool_use_id ∧
         mb.text = rb.text.map maskText ∧
         mb.content = rb.content.map maskText) mbs bs)) := by
  obtain ⟨role, content⟩ := msg
  cases content with
  | str s => exact ⟨rfl, .inl ⟨s, rfl, rfl⟩⟩
  | blocks bs =>
      refine ⟨rfl, .inr ⟨bs, bs.map maskContentBlock, rfl, rfl, ?_⟩⟩
      apply forall₂_map_self
      intro b
      exact ⟨rfl, rfl, rfl, rfl⟩

/-- C8: `maskPii` always passes; with `redact_pii` false it carries the
original request unchanged; with `redact_pii` true it carries a fresh
request that agrees with the input on every non-textual field (`id`,
`provider`, `model`, `tools`, `max_tokens`, `session_id`, roles, block
`type`/`tool_use_id`) while each textual field is the `maskText` image of
the original (the input value itself is a pure argument and is never
mutated). -/
theorem maskPii_frame (r : UnifiedRequest) :
    (∀ redact, (maskPii r redact).passed = true) ∧
    maskPii r false = .pass (some r) ∧
    ∃ m : UnifiedRequest,
      maskPii r true = .pass (some m) ∧
      m.id = r.id ∧ m.provider = r.provider ∧ m.model = r.model ∧
      m.tools = r.tools ∧ m.max_tokens = r.max_tokens ∧
      m.session_id = r.session_id ∧
      m.system = r.system.map maskText ∧
      List.Forall₂ (fun (mm rm : Message) =>
        mm.role = rm.role ∧
        ((∃ s, rm.content = .str s ∧ mm.content = .str (maskText s)) ∨
         (∃ bs mbs, rm.content = .blocks bs ∧ mm.content = .blocks mbs ∧
           List.Forall₂ (fun (mb rb : MessageContentBlock) =>
             mb.type = rb.type ∧ mb.tool_use_id = rb.tool_use_id ∧
             mb.text = rb.text.map maskText ∧
             mb.content = rb.content.map maskText) mbs bs)))
        m.messages r.messages := by
  refine ⟨?_, rfl, ?_⟩
  · intro redact; cases redact <;> rfl
  · refine ⟨_, rfl, rfl, rfl, rfl, rfl, rfl, rfl, rfl, ?_⟩
    apply forall₂_map_self
    intro msg
    have h := maskMessage_frame msg
    exact h

/-! ## Claim C9 — the hallucination scraper -/

/-- The violation the scraper emits for one non-whitelisted package root. -/
def hallucinationViolation (pkg : String) : GuardrailViolation :=
  { code := .HALLUCINATION_DETECTED,
    message := "Import \"" ++ pkg ++ "\" is not in the dependency whitelist",
    interceptor := .HallucinationScraper,
    payload := some [("package", .vstr pkg)] }

/-- Spec-side package root, stated from the claim: for a specifier beginning
with `@` the first two slash-separated segments joined by a slash, otherwise
the first segment alone. -/
def specPackageRoot (raw : String) : String :=
  match raw.data with
  | '@' :: _ =>
      match splitSlash raw with
      | a :: b :: _ => String.mk a ++ "/" ++ String.mk b
      | [a] => String.mk a
      | [] => ""
  | _ => ((splitSlash raw).map String.mk).headD raw

/-- Spec-side scraper, stated from the claim: pass on an empty whitelist or
absent content; otherwise collect the roots of every truthy captured
specifier, keep those outside the whitelist, and block with exactly one
violation per offending root when at least one exists. -/
def scrapeHallucinationsSpec (response : JsValue) (wl : List String) :
    InterceptorResult JsValue :=
  if wl.isEmpty then .pass (some response)
  else if jsFalsy (getField response "content") then .pass (some response)
  else
    let bad := (((rxAllCapture1 false importFromRx
        (asString (getField response "content"))).filter
        (fun raw => raw != "")).map specPackageRoot).filter
        (fun pkg => !(wl.contains pkg))
    if bad.isEmpty then .pass (some response)
    else .block (bad.map hallucinationViolation)

/-- The code's root computation agrees with the claim's description. -/
theorem packageRootOf_eq_spec (raw : String) :
    packageRootOf raw = specPackageRoot raw := by
  rw [packageRootOf, specPackageRoot]
  split
  · split
    · show String.mk (_ ++ '/' :: _) = String.mk ((_ ++ ['/']) ++ _)
      rw [List.append_assoc]
      rfl
    · rfl
    · rfl
  · rcases hsp : splitSlash raw with _ | ⟨a, l⟩ <;> rfl

/-- `extractImports` is a filter of the truthy captures mapped through the
root computation. -/
theorem extractImports_eq_filter_map (text : String) :
    extractImports text =
      ((rxAllCapture1 false importFromRx text).filter
        (fun raw => raw != "")).map packageRootOf := by
  rw [extractImports]
  have hbody : ∀ raw : String,
      (if raw == "" then ([] : List String) else [packageRootOf raw])
        = (if (raw != "") = true then [packageRootOf raw] else []) := by
    intro raw
    have htt : true = true := rfl
    have hff : ¬(false = true) := by decide
    cases h : raw == "" with
    | true => rw [if_pos htt, if_neg (by simp [bne, h])]
    | false => rw [if_neg hff, if_pos (by simp [bne, h])]
  simp only [hbody]
  rw [flatMap_if_singleton]

/-- The scraper's violation list is a map over the non-whitelisted roots. -/
theorem hallucinationViolationsOf_eq_filter_map (imports wl : List String) :
    hallucinationViolationsOf imports wl =
      (imports.filter (fun pkg => !(wl.contains pkg))).map hallucinationViolation := by
  rw [hallucinationViolationsOf, flatMap_if_singleton]
  rfl

/-- C9: the hallucination scraper is exactly the claim's algorithm: it
passes on an empty whitelist or falsy content, and otherwise emits one
`HALLUCINATION_DETECTED` violation per extracted package root missing from
the whitelist — a scoped specifier contributing its first two
slash-separated segments, a bare one its first — blocking precisely when at
least one such root exists. -/
theorem scrapeHallucinations_eq_spec (response : JsValue) (wl : List String) :
    scrapeHallucinations response wl = scrapeHallucinationsSpec response wl := by
  have hfun : packageRootOf = specPackageRoot := funext packageRootOf_eq_spec
  cases wl with
  | nil => rfl
  | cons w ws =>
    have h0 : ¬(((w :: ws).length == 0) = true) := by simp
    have h1 : ¬((w :: ws).isEmpty = true) := by simp
    rw [scrapeHallucinations, scrapeHallucinationsSpec, if_neg h0, if_neg h1]
    have hff : ¬(false = true) := by decide
    cases hc : jsFalsy (getField response "content") with
    | true => rfl
    | false =>
      rw [if_neg hff, if_neg hff]
      dsimp only
      rw [extractImports_eq_filter_map, hallucinationViolationsOf_eq_filter_map, hfun]
      rcases hbad : List.filter (fun pkg => !(w :: ws).contains pkg)
          (List.map specPackageRoot (List.filter (fun raw => raw != "")
            (rxAllCapture1 false importFromRx
              (asString (getField response "content"))))) with _ | ⟨v, vs⟩
      · rfl
      · simp
